import Mathlib

/-!
# IoT.js lifecycle controller (`src/iotjs.cpp`)

A shallow embedding of `iotjs::Start` and the static functions it is built
from (`InitJerry`, `InitModules`, `RunIoTjs`, `StartIoTjs`,
`UvWalkToCloseCallback`).

Every call that leaves `iotjs.cpp` (JerryScript, libuv, the module bridge, the
Environment, the reporting hooks) is appended to a trace together with the
value it returned, so that a run is described by the sequence of calls it
made.  What a collaborator answers is a field of `Ext`; the controller itself
is the only code embedded here.  `DLOG` lines only print and are left out.
-/

namespace iotjs

/-! ## Data model -/

/-- Lifecycle phase held by the Environment. -/
inductive Phase
  | Init
  | RunningMain
  | RunningLoop
  | Exiting
  deriving DecidableEq, Repr

/-- Modelled from the spec: the adjacency table of the state machine,
`{Init:[RunningMain], RunningMain:[RunningLoop], RunningLoop:[Exiting]}`
(the Environment class of `iotjs_env.h` is not part of the sources). -/
def Phase.successor : Phase → Option Phase
  | .Init => some .RunningMain
  | .RunningMain => some .RunningLoop
  | .RunningLoop => some .Exiting
  | .Exiting => none

/-- A `jerry_value_t`: an engine value together with its error flag. -/
structure JValue where
  payload : Nat
  error_flag : Bool
  deriving DecidableEq, Repr

/-- The function `jerry_value_has_error_flag`. -/
def jerry_value_has_error_flag (v : JValue) : Bool := v.error_flag

/-- A script object as seen through the `JObject` wrapper. -/
abbrev JObject := Nat

/-- Tag of a `JResult`. -/
inductive JResultType
  | Ok
  | Exception
  deriving DecidableEq, Repr

/-- Result of evaluating or calling script code: a value and a tag. -/
structure JResult where
  value : JObject
  type : JResultType
  deriving DecidableEq, Repr

/-- The method `JResult::IsOk`. -/
def JResult.IsOk (r : JResult) : Bool := r.type == JResultType.Ok

/-- The method `JResult::IsException`. -/
def JResult.IsException (r : JResult) : Bool := r.type == JResultType.Exception

/-- The `uv_run_mode` values used by the controller. -/
inductive RunMode
  | UV_RUN_DEFAULT
  | UV_RUN_ONCE
  deriving DecidableEq, Repr

/-- A `uv_handle_t` registered with the loop: `data` is the `HandleWrap`
stored in the handle (what `HandleWrap::FromHandle` reads, `none` for NULL),
`closing` tells that closure has been requested but not yet completed. -/
structure UvHandle where
  id : Nat
  data : Option Nat
  closing : Bool
  deriving DecidableEq, Repr

/-- One call made by the controller, with the value the callee returned. -/
inductive Event
  | init_debug_settings
  | GetEnv
  | ParseCommandLineArgument (argv : List String) (result : Bool)
  | uv_default_loop
  | set_loop
  | jerry_port_default_set_log_level
  | jerry_init (flags : Nat)
  | InitJerryMagicStringEx
  | jerry_parse (result : JValue)
  | jerry_run (code : JValue) (result : JValue)
  | jerry_release_value (v : JValue)
  | JObject_init
  | JObject_Global (result : JObject)
  | SetNative
  | InitModuleList
  | InitProcessModule (result : JObject)
  | GoState (next : Phase)
  | Eval (result : JResult)
  | Call (fn : JObject) (this : JObject) (args : List JObject) (result : JResult)
  | UncaughtException (v : JObject)
  | uv_run (mode : RunMode) (result : Bool)
  | ProcessNextTick (result : Bool)
  | uv_loop_alive (result : Bool)
  | ProcessEmitExit (code : Int)
  | CleanupModuleList
  | JObject_cleanup
  | uv_walk
  | FromHandle (handle : UvHandle) (result : Option Nat)
  | HandleWrap_Close (wrap : Nat)
  | uv_loop_close (result : Int)
  | jerry_cleanup
  | Environment_Release
  | release_debug_settings
  deriving DecidableEq, Repr

/-- Everything outside the controller: the handles registered with the default
loop and the remaining state of the engine, modules and operating system. -/
structure World (σ : Type) where
  loop : List UvHandle
  script : σ

/-- The collaborators of the controller.  Each field answers one call from the
state of the world; `effect` is the state change of a call that returns
nothing.  The two flag constants come from `jerry-api.h`. -/
structure Ext (σ : Type) where
  JERRY_INIT_MEM_STATS : Nat
  JERRY_INIT_SHOW_OPCODES : Nat
  effect : Event → World σ → World σ
  ParseCommandLineArgument : List String → World σ → Bool × World σ
  memstat : World σ → Bool
  show_opcode : World σ → Bool
  jerry_parse : World σ → JValue × World σ
  jerry_run : JValue → World σ → JValue × World σ
  Global : World σ → JObject × World σ
  InitProcessModule : World σ → JObject × World σ
  Eval : World σ → JResult × World σ
  Call : JObject → JObject → List JObject → World σ → JResult × World σ
  uv_run_once : World σ → Bool × World σ
  ProcessNextTick : World σ → Bool × World σ
  uv_loop_alive : World σ → Bool

/-- State of a run: the world, the phase of the Environment and the calls made
so far, oldest first. -/
structure Machine (σ : Type) where
  world : World σ
  phase : Phase
  trace : List Event

/-- How a piece of the controller ends: it returns a value, a fatal assertion
stops the process, or the iteration budget of the loop driver is used up. -/
inductive Outcome (α : Type)
  | value (a : α)
  | aborted
  | outOfFuel
  deriving DecidableEq, Repr

/-- A piece of the controller: from a state to an outcome and the state reached. -/
def Exec (σ α : Type) : Type := Machine σ → Outcome α × Machine σ

/-- Return without a call. -/
def Exec.ret {σ α : Type} (a : α) : Exec σ α := fun m => (Outcome.value a, m)

/-- Sequencing: the second piece runs only if the first returned. -/
def Exec.andThen {σ α β : Type} (x : Exec σ α) (f : α → Exec σ β) : Exec σ β := fun m =>
  match x m with
  | (Outcome.value a, m1) => f a m1
  | (Outcome.aborted, m1) => (Outcome.aborted, m1)
  | (Outcome.outOfFuel, m1) => (Outcome.outOfFuel, m1)

instance {σ : Type} : Monad (Exec σ) where
  pure := Exec.ret
  bind := Exec.andThen

/-- A call that returns nothing. -/
def call {σ : Type} (ext : Ext σ) (e : Event) : Exec σ Unit := fun m =>
  match m with
  | ⟨w, ph, tr⟩ => (Outcome.value (), ⟨ext.effect e w, ph, tr ++ [e]⟩)

/-- A call that returns a value; the event stores it. -/
def ask {σ α : Type} (f : World σ → α × World σ) (ev : α → Event) : Exec σ α := fun m =>
  match m with
  | ⟨w, ph, tr⟩ =>
    match f w with
    | (a, w1) => (Outcome.value a, ⟨w1, ph, tr ++ [ev a]⟩)

/-- A read of the world that changes nothing and is not a call of its own
(`env->config()->memstat`). -/
def peek {σ α : Type} (f : World σ → α) : Exec σ α := fun m => (Outcome.value (f m.world), m)

/-- The macro `IOTJS_ASSERT`: a failed assertion is fatal. -/
def IOTJS_ASSERT {σ : Type} (c : Bool) : Exec σ Unit := fun m =>
  if c then (Outcome.value (), m) else (Outcome.aborted, m)

/-- Modelled from the spec: `advance(next)` of the Runtime State Machine, the
body of `GoStateRunningMain`, `GoStateRunningLoop` and `GoStateExiting` (in
`iotjs_env.h`, not part of the sources): it succeeds only if `next` is the
immediate successor of the current phase, otherwise the process halts. -/
def advance {σ : Type} (next : Phase) : Exec σ Unit := fun m =>
  match m with
  | ⟨w, ph, tr⟩ =>
    if ph.successor = some next then
      (Outcome.value (), ⟨w, next, tr ++ [Event.GoState next]⟩)
    else
      (Outcome.aborted, ⟨w, ph, tr ++ [Event.GoState next]⟩)

/-! ## Event loop interface used at shutdown -/

/-- Modelled from the spec: `HandleWrap::Close` (in `iotjs_handlewrap.h`, not
part of the sources) requests closure of the handle the wrapper belongs to;
the close completes later, when the loop runs. -/
def HandleWrap_Close {σ : Type} (wrap : Nat) : Exec σ Unit := fun m =>
  match m with
  | ⟨⟨loop, script⟩, ph, tr⟩ =>
    (Outcome.value (),
      ⟨⟨loop.map fun h => if h.data = some wrap then { h with closing := true } else h, script⟩,
        ph, tr ++ [Event.HandleWrap_Close wrap]⟩)

/-- The method `HandleWrap::FromHandle`: the wrapper stored in the handle. -/
def HandleWrap_FromHandle {σ : Type} (handle : UvHandle) : Exec σ (Option Nat) := fun m =>
  match m with
  | ⟨w, ph, tr⟩ => (Outcome.value handle.data, ⟨w, ph, tr ++ [Event.FromHandle handle handle.data]⟩)

/-- Visit the handles of a list in order. -/
def walkHandles {σ : Type} (walk_cb : UvHandle → Exec σ Unit) : List UvHandle → Exec σ Unit
  | [] => Exec.ret ()
  | h :: hs => Exec.andThen (walk_cb h) fun _ => walkHandles walk_cb hs

/-- Modelled from the spec: `walk(visit_fn)` of the event loop invokes
`visit_fn` once per live handle (the handles registered when the walk starts). -/
def uv_walk {σ : Type} (walk_cb : UvHandle → Exec σ Unit) : Exec σ Unit := fun m =>
  match m with
  | ⟨w, ph, tr⟩ => walkHandles walk_cb w.loop ⟨w, ph, tr ++ [Event.uv_walk]⟩

/-- Modelled from the spec: `run_to_completion()` lets the deferred closes
finish: every handle whose closure was requested leaves the loop.  The result
tells whether handles remain. -/
def uv_run_default {σ : Type} : Exec σ Bool := fun m =>
  match m with
  | ⟨⟨loop, script⟩, ph, tr⟩ =>
    match loop.filter fun h => !h.closing with
    | rest =>
      (Outcome.value (!rest.isEmpty),
        ⟨⟨rest, script⟩, ph, tr ++ [Event.uv_run RunMode.UV_RUN_DEFAULT (!rest.isEmpty)]⟩)

/-- Error code of a loop that is closed while handles remain. -/
def UV_EBUSY : Int := -16

/-- Modelled from the spec: `close(loop) -> 0|error`, an error exactly when a
handle remains. -/
def uv_loop_close {σ : Type} : Exec σ Int := fun m =>
  match m with
  | ⟨w, ph, tr⟩ =>
    match (if w.loop.isEmpty then 0 else UV_EBUSY : Int) with
    | res => (Outcome.value res, ⟨w, ph, tr ++ [Event.uv_loop_close res]⟩)

/-! ## The controller -/

/-- The constant `JERRY_INIT_EMPTY`. -/
def JERRY_INIT_EMPTY : Nat := 0

/-- Initialize JerryScript (lines 40-79). -/
def InitJerry {σ : Type} (ext : Ext σ) : Exec σ Bool := do
  let memstat ← peek ext.memstat
  if memstat then
    call ext Event.jerry_port_default_set_log_level
  let show_opcode ← peek ext.show_opcode
  if show_opcode then
    call ext Event.jerry_port_default_set_log_level
  let jerry_flag := (JERRY_INIT_EMPTY ||| (if memstat then ext.JERRY_INIT_MEM_STATS else 0))
    ||| (if show_opcode then ext.JERRY_INIT_SHOW_OPCODES else 0)
  call ext (Event.jerry_init jerry_flag)
  call ext Event.InitJerryMagicStringEx
  let parsed_code ← ask ext.jerry_parse Event.jerry_parse
  if jerry_value_has_error_flag parsed_code then
    call ext (Event.jerry_release_value parsed_code)
    return false
  let ret_val ← ask (ext.jerry_run parsed_code) (Event.jerry_run parsed_code)
  if jerry_value_has_error_flag ret_val then
    call ext (Event.jerry_release_value parsed_code)
    call ext (Event.jerry_release_value ret_val)
    return false
  call ext (Event.jerry_release_value parsed_code)
  call ext (Event.jerry_release_value ret_val)
  return true

/-- The function `ReleaseJerry` (lines 82-84). -/
def ReleaseJerry {σ : Type} (ext : Ext σ) : Exec σ Unit :=
  call ext Event.jerry_cleanup

/-- The function `InitModules` (lines 87-90). -/
def InitModules {σ : Type} (ext : Ext σ) : Exec σ JObject := do
  call ext Event.InitModuleList
  ask ext.InitProcessModule Event.InitProcessModule

/-- The function `CleanupModules` (lines 93-95). -/
def CleanupModules {σ : Type} (ext : Ext σ) : Exec σ Unit :=
  call ext Event.CleanupModuleList

/-- The function `RunIoTjs` (lines 98-124), in the build without snapshot:
evaluate the embedded script, call the entry function with the process
object, report an exception. -/
def RunIoTjs {σ : Type} (ext : Ext σ) (process : JObject) : Exec σ Bool := do
  let jmain ← ask ext.Eval Event.Eval
  IOTJS_ASSERT jmain.IsOk
  let args : List JObject := [process]
  let global ← ask ext.Global Event.JObject_Global
  let jmain_res ← ask (ext.Call jmain.value global args) (Event.Call jmain.value global args)
  if jmain_res.IsException then
    call ext (Event.UncaughtException jmain_res.value)
    return false
  else
    return true

/-- One pass through the body of the `do ... while (more)` loop of
`StartIoTjs` (lines 150-154); the result is `more`. -/
def loopBody {σ : Type} (ext : Ext σ) : Exec σ Bool := do
  let polled ← ask ext.uv_run_once (Event.uv_run RunMode.UV_RUN_ONCE)
  let ticked ← ask ext.ProcessNextTick Event.ProcessNextTick
  let more := polled || ticked
  if more == false then
    ask (fun w => (ext.uv_loop_alive w, w)) Event.uv_loop_alive
  else
    return more

/-- The `do ... while (more)` loop of `StartIoTjs` (lines 148-155), with a
budget of iterations. -/
def loopDriver {σ : Type} (ext : Ext σ) : Nat → Exec σ Unit
  | 0 => fun m => (Outcome.outOfFuel, m)
  | fuel + 1 => Exec.andThen (loopBody ext) fun more =>
      if more then loopDriver ext fuel else Exec.ret ()

/-- The function `StartIoTjs` (lines 127-169). -/
def StartIoTjs {σ : Type} (ext : Ext σ) (fuel : Nat) : Exec σ Bool := do
  call ext Event.JObject_init
  let _global ← ask ext.Global Event.JObject_Global
  call ext Event.SetNative
  let process ← InitModules ext
  advance Phase.RunningMain
  let _ ← RunIoTjs ext process
  advance Phase.RunningLoop
  loopDriver ext fuel
  advance Phase.Exiting
  call ext (Event.ProcessEmitExit 0)
  CleanupModules ext
  call ext Event.JObject_cleanup
  return true

/-- The function `UvWalkToCloseCallback` (lines 172-177). -/
def UvWalkToCloseCallback {σ : Type} (handle : UvHandle) : Exec σ Unit := do
  let handle_wrap ← HandleWrap_FromHandle handle
  IOTJS_ASSERT handle_wrap.isSome
  match handle_wrap with
  | some w => HandleWrap_Close w
  | none => return ()

/-- The end of `Start` once `StartIoTjs` has returned true (lines 208-225):
close the loop, release the engine, the Environment and the debug settings. -/
def StartShutdown {σ : Type} (ext : Ext σ) : Exec σ Int := do
  uv_walk UvWalkToCloseCallback
  let _ ← uv_run_default
  let res ← uv_loop_close
  IOTJS_ASSERT (res == 0)
  ReleaseJerry ext
  call ext Event.Environment_Release
  call ext Event.release_debug_settings
  return 0

/-- The function `Start` (lines 180-226), run from a machine state. -/
def StartFrom {σ : Type} (ext : Ext σ) (fuel : Nat) (argv : List String) : Exec σ Int := do
  call ext Event.init_debug_settings
  call ext Event.GetEnv
  let parsed ← ask (ext.ParseCommandLineArgument argv) (Event.ParseCommandLineArgument argv)
  if !parsed then
    return 1
  call ext Event.uv_default_loop
  call ext Event.set_loop
  if !(← InitJerry ext) then
    return 1
  if !(← StartIoTjs ext fuel) then
    return 1
  StartShutdown ext

/-- State of a fresh process: nothing called yet, the Environment that
`GetEnv` creates starts in phase Init. -/
def boot {σ : Type} (w : World σ) : Machine σ :=
  { world := w, phase := Phase.Init, trace := [] }

/-- The function `Start`: a run of the process on `argv` from world `w`, the
loop driver being given `fuel` iterations. -/
def Start {σ : Type} (ext : Ext σ) (fuel : Nat) (argv : List String) (w : World σ) :
    Outcome Int × Machine σ :=
  StartFrom ext fuel argv (boot w)


/-! ## Shape of a trace -/

/-- Calls that set the engine up before the first parse. -/
def Event.isEngineSetup : Event → Bool
  | .jerry_port_default_set_log_level => true
  | .jerry_init _ => true
  | .InitJerryMagicStringEx => true
  | _ => false

/-- Calls made by the body of the loop driver. -/
def Event.isLoopStep : Event → Bool
  | .uv_run RunMode.UV_RUN_ONCE _ => true
  | .ProcessNextTick _ => true
  | .uv_loop_alive _ => true
  | _ => false

/-- Calls made by the close callback during the shutdown walk. -/
def Event.isWalkStep : Event → Bool
  | .FromHandle _ _ => true
  | .HandleWrap_Close _ => true
  | _ => false

/-- The three signals of one loop iteration: the poll reported work, the
drain reported work, the loop is alive. -/
abbrev Signals := Bool × Bool × Bool

/-- The value of `more` at the end of an iteration with these signals. -/
def Signals.more (it : Signals) : Bool := it.1 || it.2.1 || it.2.2

/-- The calls of one loop iteration with these signals: the liveness check is
made only when neither the poll nor the drain reported work. -/
def iterEvents (it : Signals) : List Event :=
  [Event.uv_run RunMode.UV_RUN_ONCE it.1, Event.ProcessNextTick it.2.1] ++
    (if it.1 || it.2.1 then [] else [Event.uv_loop_alive it.2.2])

/-- The calls of the iteration that ends the loop. -/
def idleEvents : List Event :=
  [Event.uv_run RunMode.UV_RUN_ONCE false, Event.ProcessNextTick false, Event.uv_loop_alive false]

/-- Calls of `Start` up to the engine set-up, when argument parsing succeeds. -/
def headEvents (argv : List String) : List Event :=
  [Event.init_debug_settings, Event.GetEnv, Event.ParseCommandLineArgument argv true,
    Event.uv_default_loop, Event.set_loop]

/-- Calls of `InitJerry` from the parse on, when parse and run succeed. -/
def engineEvents (p q : JValue) : List Event :=
  [Event.jerry_parse p, Event.jerry_run p q, Event.jerry_release_value p,
    Event.jerry_release_value q]

/-- Calls of `StartIoTjs` up to the evaluation of the embedded script. -/
def bootEvents (g pr : JObject) (jm : JResult) : List Event :=
  [Event.JObject_init, Event.JObject_Global g, Event.SetNative, Event.InitModuleList,
    Event.InitProcessModule pr, Event.GoState Phase.RunningMain, Event.Eval jm]

/-- Calls from the entry-function invocation to the start of the loop. -/
def mainEvents (g2 pr : JObject) (jm res : JResult) : List Event :=
  [Event.JObject_Global g2, Event.Call jm.value g2 [pr] res] ++
    (if res.IsException then [Event.UncaughtException res.value] else []) ++
    [Event.GoState Phase.RunningLoop]

/-- Calls of `StartIoTjs` after the loop, and the start of the walk. -/
def exitEvents : List Event :=
  [Event.GoState Phase.Exiting, Event.ProcessEmitExit 0, Event.CleanupModuleList,
    Event.JObject_cleanup, Event.uv_walk]

/-- Calls that release the engine, the Environment and the debug settings. -/
def releaseEvents : List Event :=
  [Event.jerry_cleanup, Event.Environment_Release, Event.release_debug_settings]

/-- The runs of `Start`: outcome, final phase and trace of every way a run with
`fuel` loop iterations on `argv` can go. -/
inductive Shape (fuel : Nat) (argv : List String) : Outcome Int → Phase → List Event → Prop
  | parseFail :
      Shape fuel argv (Outcome.value 1) Phase.Init
        [Event.init_debug_settings, Event.GetEnv, Event.ParseCommandLineArgument argv false]
  | engineParseFail (cfg : List Event) (p : JValue) :
      (∀ e ∈ cfg, e.isEngineSetup = true) → p.error_flag = true →
      Shape fuel argv (Outcome.value 1) Phase.Init
        (headEvents argv ++ cfg ++ [Event.jerry_parse p, Event.jerry_release_value p])
  | engineRunFail (cfg : List Event) (p q : JValue) :
      (∀ e ∈ cfg, e.isEngineSetup = true) → p.error_flag = false → q.error_flag = true →
      Shape fuel argv (Outcome.value 1) Phase.Init (headEvents argv ++ cfg ++ engineEvents p q)
  | evalFail (cfg : List Event) (p q : JValue) (g pr : JObject) (jm : JResult) :
      (∀ e ∈ cfg, e.isEngineSetup = true) → p.error_flag = false → q.error_flag = false →
      jm.IsOk = false →
      Shape fuel argv Outcome.aborted Phase.RunningMain
        (headEvents argv ++ cfg ++ engineEvents p q ++ bootEvents g pr jm)
  | loopBudget (cfg : List Event) (p q : JValue) (g pr g2 : JObject) (jm res : JResult)
      (busy : List Signals) :
      (∀ e ∈ cfg, e.isEngineSetup = true) → p.error_flag = false → q.error_flag = false →
      jm.IsOk = true → (∀ it ∈ busy, it.more = true) → busy.length = fuel →
      Shape fuel argv Outcome.outOfFuel Phase.RunningLoop
        (headEvents argv ++ cfg ++ engineEvents p q ++ bootEvents g pr jm ++
          mainEvents g2 pr jm res ++ busy.flatMap iterEvents)
  | walkAbort (cfg : List Event) (p q : JValue) (g pr g2 : JObject) (jm res : JResult)
      (busy : List Signals) (walk : List Event) :
      (∀ e ∈ cfg, e.isEngineSetup = true) → p.error_flag = false → q.error_flag = false →
      jm.IsOk = true → (∀ it ∈ busy, it.more = true) → (∀ e ∈ walk, e.isWalkStep = true) →
      Shape fuel argv Outcome.aborted Phase.Exiting
        (headEvents argv ++ cfg ++ engineEvents p q ++ bootEvents g pr jm ++
          mainEvents g2 pr jm res ++ busy.flatMap iterEvents ++ idleEvents ++ exitEvents ++ walk)
  | closeFail (cfg : List Event) (p q : JValue) (g pr g2 : JObject) (jm res : JResult)
      (busy : List Signals) (walk : List Event) (b : Bool) (r : Int) :
      (∀ e ∈ cfg, e.isEngineSetup = true) → p.error_flag = false → q.error_flag = false →
      jm.IsOk = true → (∀ it ∈ busy, it.more = true) → (∀ e ∈ walk, e.isWalkStep = true) →
      r ≠ 0 →
      Shape fuel argv Outcome.aborted Phase.Exiting
        (headEvents argv ++ cfg ++ engineEvents p q ++ bootEvents g pr jm ++
          mainEvents g2 pr jm res ++ busy.flatMap iterEvents ++ idleEvents ++ exitEvents ++ walk ++
          [Event.uv_run RunMode.UV_RUN_DEFAULT b, Event.uv_loop_close r])
  | done (cfg : List Event) (p q : JValue) (g pr g2 : JObject) (jm res : JResult)
      (busy : List Signals) (walk : List Event) (b : Bool) :
      (∀ e ∈ cfg, e.isEngineSetup = true) → p.error_flag = false → q.error_flag = false →
      jm.IsOk = true → (∀ it ∈ busy, it.more = true) → (∀ e ∈ walk, e.isWalkStep = true) →
      Shape fuel argv (Outcome.value 0) Phase.Exiting
        (headEvents argv ++ cfg ++ engineEvents p q ++ bootEvents g pr jm ++
          mainEvents g2 pr jm res ++ busy.flatMap iterEvents ++ idleEvents ++ exitEvents ++ walk ++
          [Event.uv_run RunMode.UV_RUN_DEFAULT b, Event.uv_loop_close 0] ++ releaseEvents)

/-! ## Reading a trace -/

/-- Argument parsing failed: `ParseCommandLineArgument` returned false. -/
def ParseFailed (tr : List Event) : Prop :=
  ∃ argv, Event.ParseCommandLineArgument argv false ∈ tr

/-- Engine initialisation failed: the parse of the empty program, or the run of
the parsed program, returned a value with the error flag. -/
def EngineInitFailed (tr : List Event) : Prop :=
  (∃ p, p.error_flag = true ∧ Event.jerry_parse p ∈ tr) ∨
    (∃ c q, q.error_flag = true ∧ Event.jerry_run c q ∈ tr)

/-- The entry function of the main script raised an exception with value `v`. -/
def MainScriptThrew (tr : List Event) (v : JObject) : Prop :=
  ∃ fn this args, Event.Call fn this args ⟨v, JResultType.Exception⟩ ∈ tr

/-! ## Scripted collaborators

A collaborator set whose answers are fixed by a small script, used to run the
controller on concrete inputs. -/

/-- What the scripted collaborators answer. -/
structure Script where
  parseOk : Bool
  parseError : Bool
  runError : Bool
  evalOk : Bool
  throws : Bool
  busyPolls : Nat
  busyForever : Bool

/-- A script in which everything succeeds and the loop is idle at once. -/
def Script.quiet : Script :=
  { parseOk := true, parseError := false, runError := false, evalOk := true, throws := false,
    busyPolls := 0, busyForever := false }

/-- Collaborators following a script: the world counts the polls made, the
first `busyPolls` polls report work (all of them when `busyForever`), the
drain never reports work and the loop is never alive on its own. -/
def scripted (sc : Script) : Ext Nat :=
  { JERRY_INIT_MEM_STATS := 4
    JERRY_INIT_SHOW_OPCODES := 1
    effect := fun _ w => w
    ParseCommandLineArgument := fun _ w => (sc.parseOk, w)
    memstat := fun _ => false
    show_opcode := fun _ => false
    jerry_parse := fun w => (⟨0, sc.parseError⟩, w)
    jerry_run := fun _ w => (⟨1, sc.runError⟩, w)
    Global := fun w => (10, w)
    InitProcessModule := fun w => (20, w)
    Eval := fun w => (⟨30, if sc.evalOk then JResultType.Ok else JResultType.Exception⟩, w)
    Call := fun _ _ _ w =>
      (if sc.throws then ⟨66, JResultType.Exception⟩ else ⟨0, JResultType.Ok⟩, w)
    uv_run_once := fun w =>
      (sc.busyForever || decide (w.script < sc.busyPolls), { w with script := w.script + 1 })
    ProcessNextTick := fun w => (false, w)
    uv_loop_alive := fun _ => false }

/-- A world with no handle registered. -/
def emptyWorld : World Nat := { loop := [], script := 0 }

/-- A world with two handles, each with its wrapper. -/
def twoHandles : World Nat :=
  { loop := [{ id := 1, data := some 11, closing := false },
             { id := 2, data := some 12, closing := false }],
    script := 0 }

/-- Engine initialisation succeeded: the run of the parsed empty program
returned a value without the error flag. -/
def EngineInitSucceeded (tr : List Event) : Prop :=
  ∃ p q, q.error_flag = false ∧ Event.jerry_run p q ∈ tr

/-- Steps that belong to the runtime proper: the run of the parsed program,
module initialisation, the main script, phase transitions, event-loop runs,
the handle walk and the loop close. -/
def Event.isRuntimeStep : Event → Bool
  | .jerry_run _ _ => true
  | .InitModuleList => true
  | .InitProcessModule _ => true
  | .Eval _ => true
  | .Call _ _ _ _ => true
  | .UncaughtException _ => true
  | .GoState _ => true
  | .uv_run _ _ => true
  | .uv_walk => true
  | .FromHandle _ _ => true
  | .HandleWrap_Close _ => true
  | .uv_loop_close _ => true
  | _ => false

/-- The teardown steps: transition to Exiting, exit notification, module
cleanup, handle walk, run to completion, loop close, engine release,
Environment release. -/
def Event.isTeardownStep : Event → Bool
  | .GoState Phase.Exiting => true
  | .ProcessEmitExit _ => true
  | .CleanupModuleList => true
  | .uv_walk => true
  | .uv_run RunMode.UV_RUN_DEFAULT _ => true
  | .uv_loop_close _ => true
  | .jerry_cleanup => true
  | .Environment_Release => true
  | _ => false

/-- An evaluation of the embedded script. -/
def Event.isEval : Event → Bool
  | .Eval _ => true
  | _ => false

/-- An invocation of a script function. -/
def Event.isCall : Event → Bool
  | .Call _ _ _ _ => true
  | _ => false

/-- A run of the event loop. -/
def Event.isUvRun : Event → Bool
  | .uv_run _ _ => true
  | _ => false

/-- A call of the `uncaught_exception` hook. -/
def Event.isUncaught : Event → Bool
  | .UncaughtException _ => true
  | _ => false

/-- The poll of an iteration started in state `m` reports work. -/
def pollAt {σ : Type} (ext : Ext σ) (m : Machine σ) : Bool :=
  (ext.uv_run_once m.world).1

/-- The drain of an iteration started in state `m` reports work. -/
def tickAt {σ : Type} (ext : Ext σ) (m : Machine σ) : Bool :=
  (ext.ProcessNextTick (ext.uv_run_once m.world).2).1

/-- The loop is alive after the poll and the drain of an iteration started in
state `m`. -/
def aliveAt {σ : Type} (ext : Ext σ) (m : Machine σ) : Bool :=
  ext.uv_loop_alive (ext.ProcessNextTick (ext.uv_run_once m.world).2).2

/-- The three signals of the iteration started in state `m`. -/
def signalsAt {σ : Type} (ext : Ext σ) (m : Machine σ) : Signals :=
  (pollAt ext m, tickAt ext m, aliveAt ext m)

/-- The state after `k` passes through the loop body. -/
def afterIters {σ : Type} (ext : Ext σ) : Nat → Machine σ → Machine σ
  | 0, m => m
  | k + 1, m => afterIters ext k (loopBody ext m).2

/-- The calls the close callback makes for one handle. -/
def closeEvents (h : UvHandle) : List Event :=
  Event.FromHandle h h.data ::
    (match h.data with
      | some w => [Event.HandleWrap_Close w]
      | none => [])

/-- The handles the close callback was invoked on, in order. -/
def visited (evs : List Event) : List UvHandle :=
  evs.filterMap fun e =>
    match e with
    | .FromHandle h _ => some h
    | _ => none

/-- The loop after closure has been requested for every handle whose wrapper
is listed. -/
def closeAll (ws : List (Option Nat)) (l : List UvHandle) : List UvHandle :=
  l.map fun x => if x.data ∈ ws then { x with closing := true } else x

/-! ## Answers of the collaborators on the way to the engine -/

/-- What `ParseCommandLineArgument` answers in a run of `Start` on `argv` from
world `w`: it is called after `init_debug_settings` and `GetEnv`. -/
def parseAnswer {σ : Type} (ext : Ext σ) (argv : List String) (w : World σ) : Bool :=
  (ext.ParseCommandLineArgument argv
    (ext.effect Event.GetEnv (ext.effect Event.init_debug_settings w))).1

/-- The world in which `InitJerry` is entered when argument parsing succeeded:
after the parse, `uv_default_loop` and `set_loop`. -/
def worldAtInitJerry {σ : Type} (ext : Ext σ) (argv : List String) (w : World σ) : World σ :=
  ext.effect Event.set_loop (ext.effect Event.uv_default_loop
    (ext.ParseCommandLineArgument argv
      (ext.effect Event.GetEnv (ext.effect Event.init_debug_settings w))).2)

/-- The world after the memory-statistics branch of `InitJerry` entered in `w0`. -/
def afterMemstat {σ : Type} (ext : Ext σ) (w0 : World σ) : World σ :=
  if ext.memstat w0 then ext.effect Event.jerry_port_default_set_log_level w0 else w0

/-- The world after the opcode-trace branch of `InitJerry` entered in `w0`. -/
def afterShowOpcode {σ : Type} (ext : Ext σ) (w0 : World σ) : World σ :=
  if ext.show_opcode (afterMemstat ext w0) then
    ext.effect Event.jerry_port_default_set_log_level (afterMemstat ext w0)
  else afterMemstat ext w0

/-- The flags `InitJerry` entered in `w0` passes to `jerry_init`. -/
def jerryFlags {σ : Type} (ext : Ext σ) (w0 : World σ) : Nat :=
  (JERRY_INIT_EMPTY ||| (if ext.memstat w0 then ext.JERRY_INIT_MEM_STATS else 0)) |||
    (if ext.show_opcode (afterMemstat ext w0) then ext.JERRY_INIT_SHOW_OPCODES else 0)

/-- The world in which `InitJerry` entered in `w0` calls `jerry_parse`: after
`jerry_init` and `InitJerryMagicStringEx`. -/
def engineWorld {σ : Type} (ext : Ext σ) (w0 : World σ) : World σ :=
  ext.effect Event.InitJerryMagicStringEx
    (ext.effect (Event.jerry_init (jerryFlags ext w0)) (afterShowOpcode ext w0))

/-- What the engine answers to the parse of the empty program. -/
def parseResult {σ : Type} (ext : Ext σ) (w0 : World σ) : JValue :=
  (ext.jerry_parse (engineWorld ext w0)).1

/-- What the engine answers to the run of the parsed program. -/
def runResult {σ : Type} (ext : Ext σ) (w0 : World σ) : JValue :=
  (ext.jerry_run (parseResult ext w0) (ext.jerry_parse (engineWorld ext w0)).2).1

/-- The engine fails to initialise in a run of `Start` on `argv` from `w`: the
parse of the empty program, or the run of the parsed program, answers a value
with the error flag. -/
def engineInitFails {σ : Type} (ext : Ext σ) (argv : List String) (w : World σ) : Bool :=
  (parseResult ext (worldAtInitJerry ext argv w)).error_flag ||
    (runResult ext (worldAtInitJerry ext argv w)).error_flag

/-! ## Running the pieces -/

section pieces
variable {σ : Type}

@[simp] theorem Exec.bind_apply {α β : Type} (x : Exec σ α) (f : α → Exec σ β) (m : Machine σ) :
    (x >>= f) m = Exec.andThen x f m := rfl

@[simp] theorem Exec.pure_apply {α : Type} (a : α) (m : Machine σ) :
    (pure a : Exec σ α) m = (Outcome.value a, m) := rfl

theorem Exec.ite_apply {α : Type} (c : Prop) [Decidable c] (x y : Exec σ α) (m : Machine σ) :
    (if c then x else y) m = if c then x m else y m := by
  split <;> rfl


theorem call_apply (ext : Ext σ) (e : Event) (m : Machine σ) :
    call ext e m =
      (Outcome.value (), { m with world := ext.effect e m.world, trace := m.trace ++ [e] }) := by
  cases m; rfl

theorem ask_apply {α : Type} (f : World σ → α × World σ) (ev : α → Event) (m : Machine σ) :
    ask f ev m = (Outcome.value (f m.world).1,
      { m with world := (f m.world).2, trace := m.trace ++ [ev (f m.world).1] }) := by
  cases m; rfl

theorem advance_apply (next : Phase) (m : Machine σ) :
    advance next m =
      if m.phase.successor = some next then
        (Outcome.value (), { m with phase := next, trace := m.trace ++ [Event.GoState next] })
      else (Outcome.aborted, { m with trace := m.trace ++ [Event.GoState next] }) := by
  cases m; rfl

theorem HandleWrap_Close_apply (wrap : Nat) (m : Machine σ) :
    HandleWrap_Close wrap m =
      (Outcome.value (),
        { m with
          world := { m.world with
            loop := m.world.loop.map fun h =>
              if h.data = some wrap then { h with closing := true } else h }
          trace := m.trace ++ [Event.HandleWrap_Close wrap] }) := by
  obtain ⟨⟨l, s⟩, ph, tr⟩ := m; rfl

theorem HandleWrap_FromHandle_apply (handle : UvHandle) (m : Machine σ) :
    HandleWrap_FromHandle handle m =
      (Outcome.value handle.data,
        { m with trace := m.trace ++ [Event.FromHandle handle handle.data] }) := by
  cases m; rfl

theorem uv_walk_apply (walk_cb : UvHandle → Exec σ Unit) (m : Machine σ) :
    uv_walk walk_cb m =
      walkHandles walk_cb m.world.loop { m with trace := m.trace ++ [Event.uv_walk] } := by
  cases m; rfl

theorem uv_run_default_apply (m : Machine σ) :
    uv_run_default m =
      (Outcome.value (!(m.world.loop.filter fun h => !h.closing).isEmpty),
        { m with
          world := { m.world with loop := m.world.loop.filter fun h => !h.closing }
          trace := m.trace ++ [Event.uv_run RunMode.UV_RUN_DEFAULT
            (!(m.world.loop.filter fun h => !h.closing).isEmpty)] }) := by
  obtain ⟨⟨l, s⟩, ph, tr⟩ := m; rfl

theorem uv_loop_close_apply (m : Machine σ) :
    uv_loop_close m =
      (Outcome.value (if m.world.loop.isEmpty then 0 else UV_EBUSY),
        { m with trace := m.trace ++
          [Event.uv_loop_close (if m.world.loop.isEmpty then 0 else UV_EBUSY)] }) := by
  cases m; rfl

theorem InitJerry_run (ext : Ext σ) (m : Machine σ) :
    ∃ (cfg : List Event) (p q : JValue), (∀ e ∈ cfg, e.isEngineSetup = true) ∧
      (InitJerry ext m).1 = Outcome.value (!p.error_flag && !q.error_flag) ∧
      (InitJerry ext m).2.phase = m.phase ∧
      (InitJerry ext m).2.trace = m.trace ++ cfg ++
        (if p.error_flag then [Event.jerry_parse p, Event.jerry_release_value p]
          else engineEvents p q) := by
  let w1 := if ext.memstat m.world then ext.effect Event.jerry_port_default_set_log_level m.world else m.world
  let w2 := if ext.show_opcode w1 then ext.effect Event.jerry_port_default_set_log_level w1 else w1
  let fl := (JERRY_INIT_EMPTY ||| (if ext.memstat m.world then ext.JERRY_INIT_MEM_STATS else 0))
    ||| (if ext.show_opcode w1 then ext.JERRY_INIT_SHOW_OPCODES else 0)
  let w3 := ext.effect Event.InitJerryMagicStringEx (ext.effect (Event.jerry_init fl) w2)
  refine ⟨(if ext.memstat m.world then [Event.jerry_port_default_set_log_level] else []) ++
    (if ext.show_opcode w1 then [Event.jerry_port_default_set_log_level] else []) ++
    [Event.jerry_init fl, Event.InitJerryMagicStringEx],
    (ext.jerry_parse w3).1, (ext.jerry_run (ext.jerry_parse w3).1 (ext.jerry_parse w3).2).1, ?_, ?_⟩
  · intro e he
    simp only [List.mem_append, List.mem_cons, List.mem_singleton, List.not_mem_nil, or_false] at he
    rcases he with (he | he) | he | he
    · split_ifs at he <;> simp_all [Event.isEngineSetup]
    · split_ifs at he <;> simp_all [Event.isEngineSetup]
    · subst he; rfl
    · subst he; rfl
  · simp only [InitJerry, Exec.bind_apply, Exec.andThen, call_apply, ask_apply, peek, Exec.pure_apply,
      jerry_value_has_error_flag, Exec.ite_apply, w1, w2, w3, fl, engineEvents]
    split_ifs <;> simp_all
end pieces

section pieces2
variable {σ : Type}

theorem InitJerry_inv (ext : Ext σ) (m m' : Machine σ) (o : Outcome Bool)
    (h : InitJerry ext m = (o, m')) :
    ∃ (cfg : List Event) (p q : JValue), (∀ e ∈ cfg, e.isEngineSetup = true) ∧
      o = Outcome.value (!p.error_flag && !q.error_flag) ∧ m'.phase = m.phase ∧
      m'.trace = m.trace ++ cfg ++
        (if p.error_flag then [Event.jerry_parse p, Event.jerry_release_value p]
          else engineEvents p q) := by
  have := InitJerry_run ext m
  rw [h] at this
  exact this

theorem RunIoTjs_inv (ext : Ext σ) (pr : JObject) (m m' : Machine σ) (o : Outcome Bool)
    (h : RunIoTjs ext pr m = (o, m')) :
    ∃ (jm res : JResult) (g2 : JObject), m'.phase = m.phase ∧
      ((jm.IsOk = false ∧ o = Outcome.aborted ∧ m'.trace = m.trace ++ [Event.Eval jm]) ∨
       (jm.IsOk = true ∧ o = Outcome.value (!res.IsException) ∧
        m'.trace = m.trace ++ [Event.Eval jm, Event.JObject_Global g2, Event.Call jm.value g2 [pr] res]
          ++ (if res.IsException then [Event.UncaughtException res.value] else []))) := by
  refine ⟨(ext.Eval m.world).1,
    (ext.Call (ext.Eval m.world).1.value (ext.Global (ext.Eval m.world).2).1 [pr]
      (ext.Global (ext.Eval m.world).2).2).1, (ext.Global (ext.Eval m.world).2).1, ?_⟩
  cases hok : (ext.Eval m.world).1.IsOk <;>
    cases hex : (ext.Call (ext.Eval m.world).1.value (ext.Global (ext.Eval m.world).2).1 [pr]
      (ext.Global (ext.Eval m.world).2).2).1.IsException <;>
    simp [RunIoTjs, Exec.andThen, call_apply, ask_apply, IOTJS_ASSERT, Exec.ite_apply, hok, hex] at h <;>
    obtain ⟨rfl, rfl⟩ := h <;> simp [hok, hex]

theorem loopBody_inv (ext : Ext σ) (m m' : Machine σ) (o : Outcome Bool)
    (h : loopBody ext m = (o, m')) :
    ∃ it : Signals, o = Outcome.value it.more ∧ m'.phase = m.phase ∧
      m'.trace = m.trace ++ iterEvents it := by
  refine ⟨((ext.uv_run_once m.world).1, (ext.ProcessNextTick (ext.uv_run_once m.world).2).1,
    ext.uv_loop_alive (ext.ProcessNextTick (ext.uv_run_once m.world).2).2), ?_⟩
  cases ha : (ext.uv_run_once m.world).1 <;>
    cases hb : (ext.ProcessNextTick (ext.uv_run_once m.world).2).1 <;>
    simp [loopBody, Exec.andThen, ask_apply, Exec.ite_apply, ha, hb] at h <;>
    obtain ⟨rfl, rfl⟩ := h <;> simp [Signals.more, iterEvents, ha, hb]

theorem iterEvents_idle (it : Signals) (h : it.more = false) : iterEvents it = idleEvents := by
  obtain ⟨a, b, c⟩ := it
  simp [Signals.more] at h
  obtain ⟨⟨rfl, rfl⟩, rfl⟩ := h
  rfl

theorem loopDriver_inv (ext : Ext σ) (fuel : Nat) (m m' : Machine σ) (o : Outcome Unit)
    (h : loopDriver ext fuel m = (o, m')) :
    ∃ busy : List Signals, (∀ it ∈ busy, it.more = true) ∧ m'.phase = m.phase ∧
      ((o = Outcome.value () ∧ m'.trace = m.trace ++ busy.flatMap iterEvents ++ idleEvents) ∨
       (o = Outcome.outOfFuel ∧ busy.length = fuel ∧
        m'.trace = m.trace ++ busy.flatMap iterEvents)) := by
  induction fuel generalizing m with
  | zero =>
    simp only [loopDriver, Prod.mk.injEq] at h
    obtain ⟨rfl, rfl⟩ := h
    exact ⟨[], by simp, rfl, Or.inr ⟨rfl, rfl, by simp⟩⟩
  | succ n ih =>
    simp only [loopDriver, Exec.andThen] at h
    split at h
    · rename_i a m1 hb
      obtain ⟨it, ha, hph, htr⟩ := loopBody_inv ext m m1 _ hb
      simp only [Outcome.value.injEq] at ha
      subst ha
      cases hm : it.more
      · simp only [hm, Bool.false_eq_true, if_false, Exec.ret, Prod.mk.injEq] at h
        obtain ⟨rfl, rfl⟩ := h
        exact ⟨[], by simp, hph, Or.inl ⟨rfl, by simp [htr, iterEvents_idle it hm]⟩⟩
      · simp only [hm, if_true] at h
        obtain ⟨busy, hb1, hb2, hb3⟩ := ih m1 h
        refine ⟨it :: busy, ?_, hb2.trans hph, ?_⟩
        · intro x hx
          rcases List.mem_cons.1 hx with rfl | hx
          · exact hm
          · exact hb1 x hx
        · rcases hb3 with ⟨rfl, ht⟩ | ⟨rfl, hl, ht⟩
          · exact Or.inl ⟨rfl, by simp [ht, htr, List.append_assoc]⟩
          · exact Or.inr ⟨rfl, by simp [hl], by simp [ht, htr, List.append_assoc]⟩
    · rename_i m1 hb
      obtain ⟨it, ha, -, -⟩ := loopBody_inv ext m m1 _ hb
      cases ha
    · rename_i m1 hb
      obtain ⟨it, ha, -, -⟩ := loopBody_inv ext m m1 _ hb
      cases ha

theorem UvWalkToCloseCallback_inv (h : UvHandle) (m m' : Machine σ) (o : Outcome Unit)
    (hr : UvWalkToCloseCallback h m = (o, m')) :
    ∃ evs : List Event, (∀ e ∈ evs, e.isWalkStep = true) ∧ m'.phase = m.phase ∧
      m'.trace = m.trace ++ evs ∧ (o = Outcome.value () ∨ o = Outcome.aborted) := by
  simp only [UvWalkToCloseCallback, Exec.bind_apply, Exec.andThen, HandleWrap_FromHandle_apply,
    IOTJS_ASSERT, Exec.pure_apply, Exec.ite_apply] at hr
  cases hd : h.data with
  | none =>
    simp [hd] at hr
    obtain ⟨rfl, rfl⟩ := hr
    exact ⟨[Event.FromHandle h none], by simp [Event.isWalkStep], rfl, rfl, Or.inr rfl⟩
  | some w =>
    simp [hd, HandleWrap_Close_apply] at hr
    obtain ⟨rfl, rfl⟩ := hr
    exact ⟨[Event.FromHandle h (some w), Event.HandleWrap_Close w], by simp [Event.isWalkStep],
      rfl, by simp, Or.inl rfl⟩

theorem walkHandles_inv (hs : List UvHandle) (m m' : Machine σ) (o : Outcome Unit)
    (hr : walkHandles UvWalkToCloseCallback hs m = (o, m')) :
    ∃ evs : List Event, (∀ e ∈ evs, e.isWalkStep = true) ∧ m'.phase = m.phase ∧
      m'.trace = m.trace ++ evs ∧ (o = Outcome.value () ∨ o = Outcome.aborted) := by
  induction hs generalizing m with
  | nil =>
    simp only [walkHandles, Exec.ret, Prod.mk.injEq] at hr
    obtain ⟨rfl, rfl⟩ := hr
    exact ⟨[], by simp, rfl, by simp, Or.inl rfl⟩
  | cons h hs ih =>
    simp only [walkHandles, Exec.andThen] at hr
    split at hr
    · rename_i a m1 hb
      obtain ⟨e1, h1, h2, h3, -⟩ := UvWalkToCloseCallback_inv h m m1 _ hb
      obtain ⟨e2, k1, k2, k3, k4⟩ := ih m1 hr
      refine ⟨e1 ++ e2, ?_, k2.trans h2, by simp [k3, h3], k4⟩
      intro e he
      rcases List.mem_append.1 he with he | he
      · exact h1 e he
      · exact k1 e he
    · rename_i m1 hb
      obtain ⟨e1, h1, h2, h3, -⟩ := UvWalkToCloseCallback_inv h m m1 _ hb
      simp only [Prod.mk.injEq] at hr
      obtain ⟨rfl, rfl⟩ := hr
      exact ⟨e1, h1, h2, h3, Or.inr rfl⟩
    · rename_i m1 hb
      obtain ⟨e1, h1, h2, h3, h4⟩ := UvWalkToCloseCallback_inv h m m1 _ hb
      rcases h4 with h4 | h4 <;> cases h4
end pieces2

section whole
variable {σ : Type}

theorem StartIoTjs_inv (ext : Ext σ) (fuel : Nat) (m m' : Machine σ) (o : Outcome Bool)
    (hm : m.phase = Phase.Init) (hr : StartIoTjs ext fuel m = (o, m')) :
    ∃ (g pr g2 : JObject) (jm res : JResult) (busy : List Signals),
      (∀ it ∈ busy, it.more = true) ∧
      ((jm.IsOk = false ∧ o = Outcome.aborted ∧ m'.phase = Phase.RunningMain ∧
          m'.trace = m.trace ++ bootEvents g pr jm) ∨
       (jm.IsOk = true ∧ o = Outcome.outOfFuel ∧ busy.length = fuel ∧
          m'.phase = Phase.RunningLoop ∧
          m'.trace = m.trace ++ bootEvents g pr jm ++ mainEvents g2 pr jm res ++
            busy.flatMap iterEvents) ∨
       (jm.IsOk = true ∧ o = Outcome.value true ∧ m'.phase = Phase.Exiting ∧
          m'.trace = m.trace ++ bootEvents g pr jm ++ mainEvents g2 pr jm res ++
            busy.flatMap iterEvents ++ idleEvents ++
            [Event.GoState Phase.Exiting, Event.ProcessEmitExit 0, Event.CleanupModuleList,
              Event.JObject_cleanup])) := by
  simp only [StartIoTjs, InitModules, CleanupModules, advance_apply, Exec.bind_apply, Exec.andThen, call_apply,
    ask_apply, Exec.pure_apply, hm, Phase.successor, if_true] at hr
  split at hr
  · rename_i b m1 hR
    obtain ⟨jm, res, g2, hph, hcase⟩ := RunIoTjs_inv ext _ _ _ _ hR
    rcases hcase with ⟨-, hb, -⟩ | ⟨hok, -, htr⟩
    · cases hb
    · simp only at hph htr
      simp only [hph, Phase.successor, if_true] at hr
      split at hr
      · rename_i u m2 hL
        obtain ⟨busy, hbusy, hph2, hcase⟩ := loopDriver_inv ext _ _ _ _ hL
        rcases hcase with ⟨-, htr2⟩ | ⟨hb, -, -⟩
        · simp only at hph2 htr2
          simp only [hph2, Phase.successor, if_true, Prod.mk.injEq] at hr
          obtain ⟨rfl, rfl⟩ := hr
          refine ⟨(ext.Global (ext.effect Event.JObject_init m.world)).1,
            (ext.InitProcessModule (ext.effect Event.InitModuleList (ext.effect Event.SetNative
              (ext.Global (ext.effect Event.JObject_init m.world)).2))).1,
            g2, jm, res, busy, hbusy, Or.inr (Or.inr ⟨hok, rfl, rfl, ?_⟩)⟩
          simp [htr2, htr, bootEvents, mainEvents, List.append_assoc]
        · cases hb
      · rename_i m2 hL
        obtain ⟨busy, hbusy, hph2, hcase⟩ := loopDriver_inv ext _ _ _ _ hL
        rcases hcase with ⟨hb, -⟩ | ⟨hb, -, -⟩ <;> cases hb
      · rename_i m2 hL
        obtain ⟨busy, hbusy, hph2, hcase⟩ := loopDriver_inv ext _ _ _ _ hL
        rcases hcase with ⟨hb, -⟩ | ⟨-, hlen, htr2⟩
        · cases hb
        · simp only [Prod.mk.injEq] at hr
          obtain ⟨rfl, rfl⟩ := hr
          simp only at hph2 htr2
          refine ⟨(ext.Global (ext.effect Event.JObject_init m.world)).1,
            (ext.InitProcessModule (ext.effect Event.InitModuleList (ext.effect Event.SetNative
              (ext.Global (ext.effect Event.JObject_init m.world)).2))).1,
            g2, jm, res, busy, hbusy, Or.inr (Or.inl ⟨hok, rfl, hlen, hph2, ?_⟩)⟩
          simp [htr2, htr, bootEvents, mainEvents, List.append_assoc]
  · rename_i m1 hR
    obtain ⟨jm, res, g2, hph, hcase⟩ := RunIoTjs_inv ext _ _ _ _ hR
    rcases hcase with ⟨hok, -, htr⟩ | ⟨-, hb, -⟩
    · simp only [Prod.mk.injEq] at hr
      obtain ⟨rfl, rfl⟩ := hr
      simp only at hph htr
      refine ⟨(ext.Global (ext.effect Event.JObject_init m.world)).1,
        (ext.InitProcessModule (ext.effect Event.InitModuleList (ext.effect Event.SetNative
          (ext.Global (ext.effect Event.JObject_init m.world)).2))).1,
        g2, jm, res, [], by simp, Or.inl ⟨hok, rfl, hph, ?_⟩⟩
      simp [htr, bootEvents, List.append_assoc]
    · cases hb
  · rename_i m1 hR
    obtain ⟨jm, res, g2, hph, hcase⟩ := RunIoTjs_inv ext _ _ _ _ hR
    rcases hcase with ⟨-, hb, -⟩ | ⟨-, hb, -⟩ <;> cases hb

theorem StartShutdown_inv (ext : Ext σ) (m m' : Machine σ) (o : Outcome Int)
    (hr : StartShutdown ext m = (o, m')) :
    ∃ (walk : List Event) (b : Bool) (r : Int),
      (∀ e ∈ walk, e.isWalkStep = true) ∧ m'.phase = m.phase ∧
      ((o = Outcome.aborted ∧ m'.trace = m.trace ++ [Event.uv_walk] ++ walk) ∨
       (o = Outcome.aborted ∧ r ≠ 0 ∧ m'.trace = m.trace ++ [Event.uv_walk] ++ walk ++
          [Event.uv_run RunMode.UV_RUN_DEFAULT b, Event.uv_loop_close r]) ∨
       (o = Outcome.value 0 ∧ m'.trace = m.trace ++ [Event.uv_walk] ++ walk ++
          [Event.uv_run RunMode.UV_RUN_DEFAULT b, Event.uv_loop_close 0] ++ releaseEvents)) := by
  simp only [StartShutdown, ReleaseJerry, uv_walk_apply, Exec.bind_apply, Exec.andThen] at hr
  split at hr
  · rename_i u m1 hW
    obtain ⟨walk, hwalk, hph, htr, -⟩ := walkHandles_inv _ _ _ _ hW
    simp only at hph htr
    simp only [uv_run_default_apply, uv_loop_close_apply, IOTJS_ASSERT, call_apply, Exec.pure_apply] at hr
    refine ⟨walk, !(List.filter (fun h => !h.closing) m1.world.loop).isEmpty,
      (if (List.filter (fun h => !h.closing) m1.world.loop).isEmpty then 0 else UV_EBUSY),
      hwalk, ?_⟩
    cases he : (List.filter (fun h => !h.closing) m1.world.loop).isEmpty
    · simp [he, UV_EBUSY] at hr
      obtain ⟨rfl, rfl⟩ := hr
      exact ⟨hph, Or.inr (Or.inl ⟨rfl, by simp [UV_EBUSY], by simp [htr, UV_EBUSY]⟩)⟩
    · simp [he] at hr
      obtain ⟨rfl, rfl⟩ := hr
      exact ⟨hph, Or.inr (Or.inr ⟨rfl, by simp [htr, releaseEvents]⟩)⟩
  · rename_i m1 hW
    obtain ⟨walk, hwalk, hph, htr, -⟩ := walkHandles_inv _ _ _ _ hW
    simp only [Prod.mk.injEq] at hr
    obtain ⟨rfl, rfl⟩ := hr
    exact ⟨walk, false, 0, hwalk, hph, Or.inl ⟨rfl, htr⟩⟩
  · rename_i m1 hW
    obtain ⟨walk, hwalk, hph, htr, hcase⟩ := walkHandles_inv _ _ _ _ hW
    rcases hcase with hb | hb <;> cases hb
end whole

section whole2
variable {σ : Type}

theorem Start_shape (ext : Ext σ) (fuel : Nat) (argv : List String) (w : World σ) :
    Shape fuel argv (Start ext fuel argv w).1 (Start ext fuel argv w).2.phase
      (Start ext fuel argv w).2.trace := by
  rcases hr : Start ext fuel argv w with ⟨o, mf⟩
  simp only
  cases hparse : (ext.ParseCommandLineArgument argv
      (ext.effect Event.GetEnv (ext.effect Event.init_debug_settings w))).1
  · simp [Start, StartFrom, boot, Exec.andThen, call_apply, ask_apply, Exec.ite_apply, hparse] at hr
    obtain ⟨rfl, rfl⟩ := hr
    exact Shape.parseFail
  · simp only [Start, StartFrom, boot, Exec.bind_apply, Exec.andThen, call_apply, ask_apply, Exec.ite_apply,
      hparse, Exec.pure_apply, Bool.not_true, Bool.false_eq_true, if_false] at hr
    split at hr
    · rename_i b m1 hI
      obtain ⟨cfg, p, q, hcfg, hb, hph, htr⟩ := InitJerry_inv ext _ _ _ hI
      simp only [Outcome.value.injEq, List.nil_append] at hb hph htr
      subst hb
      have hhead : [Event.init_debug_settings] ++ [Event.GetEnv] ++
          [Event.ParseCommandLineArgument argv true] ++ [Event.uv_default_loop] ++
          [Event.set_loop] = headEvents argv := rfl
      rw [hhead] at htr
      cases hp : p.error_flag
      · cases hq : q.error_flag
        · simp only [hp, hq, Bool.not_false, Bool.and_self, Bool.not_true, Bool.false_eq_true,
            if_false] at hr htr
          split at hr
          · rename_i a m2 hS
            obtain ⟨g, pr, g2, jm, res, busy, hbusy, hcase⟩ := StartIoTjs_inv ext fuel _ _ _ hph hS
            rcases hcase with ⟨-, ha, -⟩ | ⟨-, ha, -⟩ | ⟨hok, ha, hph2, htr2⟩
            · cases ha
            · cases ha
            · simp only [Outcome.value.injEq] at ha
              subst ha
              simp only [Bool.not_true, Bool.false_eq_true, if_false] at hr
              obtain ⟨walk, b, r, hwalk, hph3, hcase⟩ := StartShutdown_inv ext _ _ _ hr
              rw [hph3, hph2]
              rcases hcase with ⟨rfl, htr3⟩ | ⟨rfl, hr0, htr3⟩ | ⟨rfl, htr3⟩
              · have := @Shape.walkAbort fuel argv cfg p q g pr g2 jm res busy
                  walk hcfg hp hq hok hbusy hwalk
                simpa [htr3, htr2, htr, exitEvents, List.append_assoc] using this
              · have := @Shape.closeFail fuel argv cfg p q g pr g2 jm res busy
                  walk b r hcfg hp hq hok hbusy hwalk hr0
                simpa [htr3, htr2, htr, exitEvents, List.append_assoc] using this
              · have := @Shape.done fuel argv cfg p q g pr g2 jm res busy
                  walk b hcfg hp hq hok hbusy hwalk
                simpa [htr3, htr2, htr, exitEvents, List.append_assoc] using this
          · rename_i m2 hS
            obtain ⟨g, pr, g2, jm, res, busy, hbusy, hcase⟩ := StartIoTjs_inv ext fuel _ _ _ hph hS
            simp only [Prod.mk.injEq] at hr
            obtain ⟨rfl, rfl⟩ := hr
            rcases hcase with ⟨hok, -, hph2, htr2⟩ | ⟨-, ha, -⟩ | ⟨-, ha, -⟩
            · rw [hph2, htr2, htr]
              exact Shape.evalFail cfg p q g pr jm hcfg hp hq hok
            · cases ha
            · cases ha
          · rename_i m2 hS
            obtain ⟨g, pr, g2, jm, res, busy, hbusy, hcase⟩ := StartIoTjs_inv ext fuel _ _ _ hph hS
            simp only [Prod.mk.injEq] at hr
            obtain ⟨rfl, rfl⟩ := hr
            rcases hcase with ⟨-, ha, -⟩ | ⟨hok, -, hlen, hph2, htr2⟩ | ⟨-, ha, -⟩
            · cases ha
            · rw [hph2, htr2, htr]
              exact Shape.loopBudget cfg p q g pr g2 jm res busy hcfg hp hq hok hbusy hlen
            · cases ha
        · simp [hp, hq] at hr htr
          obtain ⟨rfl, rfl⟩ := hr
          rw [hph, htr]
          exact Shape.engineRunFail cfg p q hcfg hp hq
      · simp [hp] at hr htr
        obtain ⟨rfl, rfl⟩ := hr
        rw [hph, htr]
        have := @Shape.engineParseFail fuel argv cfg p hcfg hp
        simpa [List.append_assoc] using this
    · rename_i m1 hI
      obtain ⟨cfg, p, q, hcfg, hb, -⟩ := InitJerry_inv ext _ _ _ hI
      cases hb
    · rename_i m1 hI
      obtain ⟨cfg, p, q, hcfg, hb, -⟩ := InitJerry_inv ext _ _ _ hI
      cases hb
end whole2

section reading
variable {σ : Type}

theorem not_mem_of_class {l : List Event} {C : Event → Bool} (hl : ∀ e ∈ l, C e = true)
    {x : Event} (hx : C x = false) : x ∉ l := by
  intro h
  rw [hl x h] at hx
  cases hx

theorem iterEvents_class (it : Signals) : ∀ e ∈ iterEvents it, e.isLoopStep = true := by
  intro e he
  simp only [iterEvents, List.mem_append, List.mem_cons, List.mem_singleton, List.not_mem_nil,
    or_false] at he
  rcases he with (rfl | rfl) | he
  · rfl
  · rfl
  · split_ifs at he
    · cases he
    · rw [List.mem_singleton.1 he]; rfl

theorem loop_class (busy : List Signals) :
    ∀ e ∈ busy.flatMap iterEvents, e.isLoopStep = true := by
  intro e he
  obtain ⟨it, -, h⟩ := List.mem_flatMap.1 he
  exact iterEvents_class it e h

theorem Shape.exit_code {fuel : Nat} {argv : List String} {r : Int} {ph : Phase}
    {tr : List Event} (h : Shape fuel argv (Outcome.value r) ph tr) :
    (r = 1 ↔ ParseFailed tr ∨ EngineInitFailed tr) ∧
      (¬(ParseFailed tr ∨ EngineInitFailed tr) → r = 0) ∧
      (∀ v, MainScriptThrew tr v → r = 0) := by
  cases h with
  | parseFail =>
    refine ⟨⟨fun _ => Or.inl ⟨argv, by simp⟩, fun _ => rfl⟩, fun h => ?_, fun v h => ?_⟩
    · exact absurd (Or.inl ⟨argv, by simp⟩) h
    · obtain ⟨fn, this, args, h⟩ := h
      simp at h
  | engineParseFail cfg p hcfg hp =>
    have hf : EngineInitFailed (headEvents argv ++ cfg ++ [Event.jerry_parse p, Event.jerry_release_value p]) :=
      Or.inl ⟨p, hp, by simp⟩
    refine ⟨⟨fun _ => Or.inr hf, fun _ => rfl⟩, fun h => absurd (Or.inr hf) h, fun v h => ?_⟩
    obtain ⟨fn, this, args, h⟩ := h
    simp [headEvents, not_mem_of_class hcfg, Event.isEngineSetup] at h
  | engineRunFail cfg p q hcfg hp hq =>
    have hf : EngineInitFailed (headEvents argv ++ cfg ++ engineEvents p q) :=
      Or.inr ⟨p, q, hq, by simp [engineEvents]⟩
    refine ⟨⟨fun _ => Or.inr hf, fun _ => rfl⟩, fun h => absurd (Or.inr hf) h, fun v h => ?_⟩
    obtain ⟨fn, this, args, h⟩ := h
    simp [headEvents, engineEvents, not_mem_of_class hcfg, Event.isEngineSetup] at h
  | done cfg p q g pr g2 jm res busy walk b hcfg hp hq hok hbusy hwalk =>
    have hn : ¬(ParseFailed (headEvents argv ++ cfg ++ engineEvents p q ++ bootEvents g pr jm ++
          mainEvents g2 pr jm res ++ busy.flatMap iterEvents ++ idleEvents ++ exitEvents ++ walk ++
          [Event.uv_run RunMode.UV_RUN_DEFAULT b, Event.uv_loop_close 0] ++ releaseEvents) ∨
        EngineInitFailed (headEvents argv ++ cfg ++ engineEvents p q ++ bootEvents g pr jm ++
          mainEvents g2 pr jm res ++ busy.flatMap iterEvents ++ idleEvents ++ exitEvents ++ walk ++
          [Event.uv_run RunMode.UV_RUN_DEFAULT b, Event.uv_loop_close 0] ++ releaseEvents)) := by
      rintro (⟨a, h⟩ | ⟨x, hx, h⟩ | ⟨c, x, hx, h⟩)
      · simp [headEvents, engineEvents, bootEvents, mainEvents, idleEvents, exitEvents,
          releaseEvents, not_mem_of_class hcfg, not_mem_of_class hwalk,
          not_mem_of_class (loop_class busy), Event.isEngineSetup, Event.isLoopStep,
          Event.isWalkStep] at h
      · simp [headEvents, engineEvents, bootEvents, mainEvents, idleEvents, exitEvents,
          releaseEvents, not_mem_of_class hcfg, not_mem_of_class hwalk,
          not_mem_of_class (loop_class busy), Event.isEngineSetup, Event.isLoopStep,
          Event.isWalkStep] at h
        subst h
        simp [hp] at hx
      · simp [headEvents, engineEvents, bootEvents, mainEvents, idleEvents, exitEvents,
          releaseEvents, not_mem_of_class hcfg, not_mem_of_class hwalk,
          not_mem_of_class (loop_class busy), Event.isEngineSetup, Event.isLoopStep,
          Event.isWalkStep] at h
        obtain ⟨rfl, rfl⟩ := h
        simp [hq] at hx
    exact ⟨⟨fun h => absurd h (by decide), fun h => absurd h hn⟩, fun _ => rfl, fun _ _ => rfl⟩
end reading

section claims2
variable {σ : Type}

attribute [simp] headEvents engineEvents bootEvents mainEvents idleEvents exitEvents releaseEvents
  Event.isEngineSetup Event.isLoopStep Event.isWalkStep

theorem Shape.engine_parse_failure {fuel : Nat} {argv : List String} {o : Outcome Int}
    {ph : Phase} {tr : List Event} (h : Shape fuel argv o ph tr)
    (herr : ∃ p, p.error_flag = true ∧ Event.jerry_parse p ∈ tr) :
    o = Outcome.value 1 ∧ ph = Phase.Init ∧ ∀ e ∈ tr, e.isRuntimeStep = false := by
  obtain ⟨x, hx, hmem⟩ := herr
  cases h with
  | parseFail => simp at hmem
  | engineParseFail cfg p hcfg hp =>
    refine ⟨rfl, rfl, ?_⟩
    intro e he
    simp only [List.mem_append] at he
    rcases he with (he | he) | he
    · simp at he
      rcases he with rfl | rfl | rfl | rfl | rfl <;> rfl
    · have := hcfg e he
      cases e <;> simp_all [Event.isRuntimeStep]
    · simp at he
      rcases he with rfl | rfl <;> rfl
  | engineRunFail cfg p q hcfg hp hq =>
    simp [not_mem_of_class hcfg] at hmem
    subst hmem
    simp [hp] at hx
  | evalFail cfg p q g pr jm hcfg hp hq hok =>
    simp [not_mem_of_class hcfg] at hmem
    subst hmem
    simp [hp] at hx
  | loopBudget cfg p q g pr g2 jm res busy hcfg hp hq hok hbusy hlen =>
    simp [not_mem_of_class hcfg, not_mem_of_class (loop_class busy)] at hmem
    subst hmem
    simp [hp] at hx
  | walkAbort cfg p q g pr g2 jm res busy walk hcfg hp hq hok hbusy hwalk =>
    simp [not_mem_of_class hcfg, not_mem_of_class (loop_class busy),
      not_mem_of_class hwalk] at hmem
    subst hmem
    simp [hp] at hx
  | closeFail cfg p q g pr g2 jm res busy walk b r hcfg hp hq hok hbusy hwalk hr =>
    simp [not_mem_of_class hcfg, not_mem_of_class (loop_class busy),
      not_mem_of_class hwalk] at hmem
    subst hmem
    simp [hp] at hx
  | done cfg p q g pr g2 jm res busy walk b hcfg hp hq hok hbusy hwalk =>
    simp [not_mem_of_class hcfg, not_mem_of_class (loop_class busy),
      not_mem_of_class hwalk] at hmem
    subst hmem
    simp [hp] at hx

/-- C3. In every run in which argument parsing succeeds and the parse of the
empty bootstrap program returns a value with the error flag, `Start` returns 1
in phase Init, and the run contains no run of the parsed program, no module
initialisation, no step of the main script, no phase transition, no event-loop
run, no handle walk and no loop close. -/
theorem Start_engine_parse_failure (ext : Ext σ) (fuel : Nat) (argv : List String) (w : World σ)
    (_hparse : Event.ParseCommandLineArgument argv true ∈ (Start ext fuel argv w).2.trace)
    (herr : ∃ p, p.error_flag = true ∧ Event.jerry_parse p ∈ (Start ext fuel argv w).2.trace) :
    (Start ext fuel argv w).1 = Outcome.value 1 ∧
      (Start ext fuel argv w).2.phase = Phase.Init ∧
      ∀ e ∈ (Start ext fuel argv w).2.trace, e.isRuntimeStep = false :=
  (Start_shape ext fuel argv w).engine_parse_failure herr

theorem loop_filter_nil (busy : List Signals) (P : Event → Bool)
    (hP : ∀ e, e.isLoopStep = true → P e = false) :
    (busy.flatMap iterEvents).filter P = [] := by
  rw [List.filter_eq_nil_iff]
  intro e he
  simp [hP e (loop_class busy e he)]

theorem class_filter_nil {l : List Event} {C : Event → Bool} (hl : ∀ e ∈ l, C e = true)
    (P : Event → Bool) (hP : ∀ e, C e = true → P e = false) : l.filter P = [] := by
  rw [List.filter_eq_nil_iff]
  intro e he
  simp [hP e (hl e he)]

theorem loopStep_not_teardown :
    ∀ e : Event, e.isLoopStep = true → e.isTeardownStep = false := by
  intro e he
  cases e <;> first
    | rfl
    | exact Bool.noConfusion he
    | (rename_i md _; cases md <;> first | rfl | exact Bool.noConfusion he)

theorem Shape.teardown_order {fuel : Nat} {argv : List String} {ph : Phase}
    {tr : List Event} (h : Shape fuel argv (Outcome.value 0) ph tr) :
    ∃ b, tr.filter Event.isTeardownStep =
      [Event.GoState Phase.Exiting, Event.ProcessEmitExit 0, Event.CleanupModuleList,
        Event.uv_walk, Event.uv_run RunMode.UV_RUN_DEFAULT b, Event.uv_loop_close 0,
        Event.jerry_cleanup, Event.Environment_Release] := by
  cases h with
  | done cfg p q g pr g2 jm res busy walk b hcfg hp hq hok hbusy hwalk =>
    refine ⟨b, ?_⟩
    have h1 := class_filter_nil hcfg Event.isTeardownStep
      (by intro e; cases e <;> simp [Event.isTeardownStep])
    have h2 := class_filter_nil hwalk Event.isTeardownStep
      (by intro e; cases e <;> simp [Event.isTeardownStep])
    have h3 := loop_filter_nil busy Event.isTeardownStep loopStep_not_teardown
    simp only [List.filter_append, h1, h2, h3]
    cases res.IsException <;> simp [Event.isTeardownStep]

/-- C6. In every run of `Start` that returns 0 the teardown steps occur exactly
once each and in this order: transition to Exiting, exit notification with
code 0, module cleanup, handle walk, run of the loop to completion, loop close,
engine release, Environment release. -/
theorem Start_teardown_order (ext : Ext σ) (fuel : Nat) (argv : List String) (w : World σ)
    (h : (Start ext fuel argv w).1 = Outcome.value 0) :
    ∃ b, (Start ext fuel argv w).2.trace.filter Event.isTeardownStep =
      [Event.GoState Phase.Exiting, Event.ProcessEmitExit 0, Event.CleanupModuleList,
        Event.uv_walk, Event.uv_run RunMode.UV_RUN_DEFAULT b, Event.uv_loop_close 0,
        Event.jerry_cleanup, Event.Environment_Release] := by
  have hs := Start_shape ext fuel argv w
  rw [h] at hs
  exact hs.teardown_order
end claims2

section claims3
variable {σ : Type}

theorem all_false_of_filter_nil {l : List Event} {P : Event → Bool} (h : l.filter P = []) :
    ∀ e ∈ l, P e = false := by
  intro e he
  have := List.filter_eq_nil_iff.1 h e he
  simpa using this

theorem loopStep_not_eval : ∀ e : Event, e.isLoopStep = true → e.isEval = false := by
  intro e he
  cases e <;> first | rfl | exact Bool.noConfusion he

theorem loopStep_not_call : ∀ e : Event, e.isLoopStep = true → e.isCall = false := by
  intro e he
  cases e <;> first | rfl | exact Bool.noConfusion he

theorem loopStep_not_uncaught : ∀ e : Event, e.isLoopStep = true → e.isUncaught = false := by
  intro e he
  cases e <;> first | rfl | exact Bool.noConfusion he

theorem walkStep_not_eval : ∀ e : Event, e.isWalkStep = true → e.isEval = false := by
  intro e he
  cases e <;> first | rfl | exact Bool.noConfusion he

theorem walkStep_not_call : ∀ e : Event, e.isWalkStep = true → e.isCall = false := by
  intro e he
  cases e <;> first | rfl | exact Bool.noConfusion he

theorem walkStep_not_uncaught : ∀ e : Event, e.isWalkStep = true → e.isUncaught = false := by
  intro e he
  cases e <;> first | rfl | exact Bool.noConfusion he

theorem setup_not_eval : ∀ e : Event, e.isEngineSetup = true → e.isEval = false := by
  intro e he
  cases e <;> first | rfl | exact Bool.noConfusion he

theorem setup_not_call : ∀ e : Event, e.isEngineSetup = true → e.isCall = false := by
  intro e he
  cases e <;> first | rfl | exact Bool.noConfusion he

theorem setup_not_uvRun : ∀ e : Event, e.isEngineSetup = true → e.isUvRun = false := by
  intro e he
  cases e <;> first | rfl | exact Bool.noConfusion he

theorem setup_not_uncaught : ∀ e : Event, e.isEngineSetup = true → e.isUncaught = false := by
  intro e he
  cases e <;> first | rfl | exact Bool.noConfusion he

/-- Splitting a trace of a booted run around the evaluation of the embedded script. -/
theorem bootstrap_split (argv : List String) (cfg : List Event) (p q : JValue) (g pr : JObject)
    (jm : JResult) (post : List Event) (hcfg : ∀ e ∈ cfg, e.isEngineSetup = true)
    (hpost : post.filter Event.isEval = [])
    (hcall : jm.IsOk = true → ∃ g2 res rest,
      post = [Event.JObject_Global g2, Event.Call jm.value g2 [pr] res] ++ rest ∧
        rest.filter Event.isCall = []) :
    ∃ pre post' pr' jm',
      headEvents argv ++ cfg ++ engineEvents p q ++ bootEvents g pr jm ++ post =
        pre ++ [Event.InitModuleList, Event.InitProcessModule pr',
          Event.GoState Phase.RunningMain, Event.Eval jm'] ++ post' ∧
      (∀ e ∈ pre, e.isEval = false ∧ e.isCall = false ∧ e.isUvRun = false) ∧
      (∀ e ∈ post', e.isEval = false) ∧
      (jm'.IsOk = true → ∃ g2 res rest,
        post' = [Event.JObject_Global g2, Event.Call jm'.value g2 [pr'] res] ++ rest ∧
          ∀ e ∈ rest, e.isCall = false) := by
  refine ⟨headEvents argv ++ cfg ++ engineEvents p q ++
    [Event.JObject_init, Event.JObject_Global g, Event.SetNative], post, pr, jm, ?_, ?_, ?_, ?_⟩
  · simp [List.append_assoc]
  · intro e he
    simp only [List.mem_append] at he
    rcases he with ((he | he) | he) | he
    · simp at he
      rcases he with rfl | rfl | rfl | rfl | rfl <;> exact ⟨rfl, rfl, rfl⟩
    · exact ⟨setup_not_eval e (hcfg e he), setup_not_call e (hcfg e he),
        setup_not_uvRun e (hcfg e he)⟩
    · simp at he
      rcases he with rfl | rfl | rfl | rfl <;> exact ⟨rfl, rfl, rfl⟩
    · simp at he
      rcases he with rfl | rfl | rfl <;> exact ⟨rfl, rfl, rfl⟩
  · exact all_false_of_filter_nil hpost
  · intro hok
    obtain ⟨g2, res, rest, h1, h2⟩ := hcall hok
    exact ⟨g2, res, rest, h1, all_false_of_filter_nil h2⟩

theorem Shape.bootstrap_once {fuel : Nat} {argv : List String} {o : Outcome Int}
    {ph : Phase} {tr : List Event} (h : Shape fuel argv o ph tr)
    (hinit : EngineInitSucceeded tr) :
    ∃ pre post pr jm,
      tr = pre ++ [Event.InitModuleList, Event.InitProcessModule pr,
          Event.GoState Phase.RunningMain, Event.Eval jm] ++ post ∧
      (∀ e ∈ pre, e.isEval = false ∧ e.isCall = false ∧ e.isUvRun = false) ∧
      (∀ e ∈ post, e.isEval = false) ∧
      (jm.IsOk = true → ∃ g2 res rest,
        post = [Event.JObject_Global g2, Event.Call jm.value g2 [pr] res] ++ rest ∧
          ∀ e ∈ rest, e.isCall = false) := by
  obtain ⟨x, y, hy, hmem⟩ := hinit
  cases h with
  | parseFail => simp at hmem
  | engineParseFail cfg p hcfg hp => simp [not_mem_of_class hcfg] at hmem
  | engineRunFail cfg p q hcfg hp hq =>
    simp [not_mem_of_class hcfg] at hmem
    obtain ⟨rfl, rfl⟩ := hmem
    simp [hq] at hy
  | evalFail cfg p q g pr jm hcfg hp hq hok =>
    have := bootstrap_split argv cfg p q g pr jm [] hcfg rfl (by simp [hok])
    simpa using this
  | loopBudget cfg p q g pr g2 jm res busy hcfg hp hq hok hbusy hlen =>
    have := bootstrap_split argv cfg p q g pr jm
      (mainEvents g2 pr jm res ++ busy.flatMap iterEvents) hcfg
      (by
        simp only [List.filter_append, loop_filter_nil busy _ loopStep_not_eval]
        cases res.IsException <;> simp [Event.isEval])
      (fun _ => ⟨g2, res, (if res.IsException then [Event.UncaughtException res.value] else [])
        ++ [Event.GoState Phase.RunningLoop] ++ busy.flatMap iterEvents, by simp, by
        simp only [List.filter_append, loop_filter_nil busy _ loopStep_not_call]
        cases res.IsException <;> simp [Event.isCall]⟩)
    simpa [List.append_assoc] using this
  | walkAbort cfg p q g pr g2 jm res busy walk hcfg hp hq hok hbusy hwalk =>
    have := bootstrap_split argv cfg p q g pr jm
      (mainEvents g2 pr jm res ++ busy.flatMap iterEvents ++ idleEvents ++ exitEvents ++ walk) hcfg
      (by
        simp only [List.filter_append, loop_filter_nil busy _ loopStep_not_eval,
          class_filter_nil hwalk _ walkStep_not_eval]
        cases res.IsException <;> simp [Event.isEval])
      (fun _ => ⟨g2, res, (if res.IsException then [Event.UncaughtException res.value] else [])
        ++ [Event.GoState Phase.RunningLoop] ++ busy.flatMap iterEvents ++ idleEvents ++
        exitEvents ++ walk, by simp, by
        simp only [List.filter_append, loop_filter_nil busy _ loopStep_not_call,
          class_filter_nil hwalk _ walkStep_not_call]
        cases res.IsException <;> simp [Event.isCall]⟩)
    simpa [List.append_assoc] using this
  | closeFail cfg p q g pr g2 jm res busy walk b r hcfg hp hq hok hbusy hwalk hr =>
    have := bootstrap_split argv cfg p q g pr jm
      (mainEvents g2 pr jm res ++ busy.flatMap iterEvents ++ idleEvents ++ exitEvents ++ walk ++
        [Event.uv_run RunMode.UV_RUN_DEFAULT b, Event.uv_loop_close r]) hcfg
      (by
        simp only [List.filter_append, loop_filter_nil busy _ loopStep_not_eval,
          class_filter_nil hwalk _ walkStep_not_eval]
        cases res.IsException <;> simp [Event.isEval])
      (fun _ => ⟨g2, res, (if res.IsException then [Event.UncaughtException res.value] else [])
        ++ [Event.GoState Phase.RunningLoop] ++ busy.flatMap iterEvents ++ idleEvents ++
        exitEvents ++ walk ++ [Event.uv_run RunMode.UV_RUN_DEFAULT b, Event.uv_loop_close r],
        by simp, by
        simp only [List.filter_append, loop_filter_nil busy _ loopStep_not_call,
          class_filter_nil hwalk _ walkStep_not_call]
        cases res.IsException <;> simp [Event.isCall]⟩)
    simpa [List.append_assoc] using this
  | done cfg p q g pr g2 jm res busy walk b hcfg hp hq hok hbusy hwalk =>
    have := bootstrap_split argv cfg p q g pr jm
      (mainEvents g2 pr jm res ++ busy.flatMap iterEvents ++ idleEvents ++ exitEvents ++ walk ++
        [Event.uv_run RunMode.UV_RUN_DEFAULT b, Event.uv_loop_close 0] ++ releaseEvents) hcfg
      (by
        simp only [List.filter_append, loop_filter_nil busy _ loopStep_not_eval,
          class_filter_nil hwalk _ walkStep_not_eval]
        cases res.IsException <;> simp [Event.isEval])
      (fun _ => ⟨g2, res, (if res.IsException then [Event.UncaughtException res.value] else [])
        ++ [Event.GoState Phase.RunningLoop] ++ busy.flatMap iterEvents ++ idleEvents ++
        exitEvents ++ walk ++ [Event.uv_run RunMode.UV_RUN_DEFAULT b, Event.uv_loop_close 0] ++
        releaseEvents, by simp, by
        simp only [List.filter_append, loop_filter_nil busy _ loopStep_not_call,
          class_filter_nil hwalk _ walkStep_not_call]
        cases res.IsException <;> simp [Event.isCall]⟩)
    simpa [List.append_assoc] using this

/-- C10. In every run in which engine initialisation succeeds, the embedded
script is evaluated exactly once, right after `InitModuleList`,
`InitProcessModule` and the transition to RunningMain, and before any run of
the event loop; when the evaluation yields an entry function, that function is
invoked exactly once, with the result of `JObject::Global()` as receiver and
the process object returned by `InitProcessModule` as its only argument. -/
theorem Start_bootstrap_once (ext : Ext σ) (fuel : Nat) (argv : List String) (w : World σ)
    (hinit : EngineInitSucceeded (Start ext fuel argv w).2.trace) :
    ∃ pre post pr jm,
      (Start ext fuel argv w).2.trace =
        pre ++ [Event.InitModuleList, Event.InitProcessModule pr,
          Event.GoState Phase.RunningMain, Event.Eval jm] ++ post ∧
      (∀ e ∈ pre, e.isEval = false ∧ e.isCall = false ∧ e.isUvRun = false) ∧
      (∀ e ∈ post, e.isEval = false) ∧
      (jm.IsOk = true → ∃ g2 res rest,
        post = [Event.JObject_Global g2, Event.Call jm.value g2 [pr] res] ++ rest ∧
          ∀ e ∈ rest, e.isCall = false) :=
  (Start_shape ext fuel argv w).bootstrap_once hinit
end claims3

section claims4
variable {σ : Type}

theorem uncaught_split (argv : List String) (cfg : List Event) (p q : JValue) (g pr g2 : JObject)
    (jm : JResult) (v : JObject) (busy : List Signals) (post : List Event)
    (hcfg : ∀ e ∈ cfg, e.isEngineSetup = true)
    (hpost : post.filter Event.isUncaught = []) :
    ∃ pre fn this args,
      headEvents argv ++ cfg ++ engineEvents p q ++ bootEvents g pr jm ++
          mainEvents g2 pr jm ⟨v, JResultType.Exception⟩ ++ busy.flatMap iterEvents ++ post =
        pre ++ [Event.Call fn this args ⟨v, JResultType.Exception⟩, Event.UncaughtException v,
          Event.GoState Phase.RunningLoop] ++ busy.flatMap iterEvents ++ post ∧
      (∀ e ∈ pre, e.isUvRun = false ∧ e.isUncaught = false) ∧
      (∀ e ∈ busy.flatMap iterEvents ++ post, e.isUncaught = false) := by
  refine ⟨headEvents argv ++ cfg ++ engineEvents p q ++ bootEvents g pr jm ++
    [Event.JObject_Global g2], jm.value, g2, [pr], ?_, ?_, ?_⟩
  · simp [JResult.IsException, List.append_assoc]
  · intro e he
    simp only [List.mem_append] at he
    rcases he with (((he | he) | he) | he) | he
    · simp at he
      rcases he with rfl | rfl | rfl | rfl | rfl <;> exact ⟨rfl, rfl⟩
    · exact ⟨setup_not_uvRun e (hcfg e he), setup_not_uncaught e (hcfg e he)⟩
    · simp at he
      rcases he with rfl | rfl | rfl | rfl <;> exact ⟨rfl, rfl⟩
    · simp at he
      rcases he with rfl | rfl | rfl | rfl | rfl | rfl | rfl <;> exact ⟨rfl, rfl⟩
    · simp at he
      subst he
      exact ⟨rfl, rfl⟩
  · apply all_false_of_filter_nil
    simp only [List.filter_append, loop_filter_nil busy _ loopStep_not_uncaught, hpost,
      List.append_nil]

theorem Shape.uncaught {fuel : Nat} {argv : List String} {o : Outcome Int}
    {ph : Phase} {tr : List Event} (h : Shape fuel argv o ph tr) (v : JObject)
    (hthrow : MainScriptThrew tr v) :
    ∃ (pre : List Event) (busy : List Signals) (post : List Event) (fn this : JObject)
        (args : List JObject),
      tr = pre ++ [Event.Call fn this args ⟨v, JResultType.Exception⟩, Event.UncaughtException v,
          Event.GoState Phase.RunningLoop] ++ busy.flatMap iterEvents ++ post ∧
      (∀ e ∈ pre, e.isUvRun = false ∧ e.isUncaught = false) ∧
      (∀ e ∈ busy.flatMap iterEvents ++ post, e.isUncaught = false) ∧
      (∀ it ∈ busy, it.more = true) ∧
      ((o = Outcome.outOfFuel ∧ busy.length = fuel ∧ post = []) ∨
       (o ≠ Outcome.outOfFuel ∧
        ∃ rest, post = idleEvents ++ Event.GoState Phase.Exiting :: rest)) := by
  obtain ⟨fn, this, args, hmem⟩ := hthrow
  cases h with
  | parseFail => simp at hmem
  | engineParseFail cfg p hcfg hp => simp [not_mem_of_class hcfg] at hmem
  | engineRunFail cfg p q hcfg hp hq => simp [not_mem_of_class hcfg] at hmem
  | evalFail cfg p q g pr jm hcfg hp hq hok => simp [not_mem_of_class hcfg] at hmem
  | loopBudget cfg p q g pr g2 jm res busy hcfg hp hq hok hbusy hlen =>
    simp [not_mem_of_class hcfg, not_mem_of_class (loop_class busy)] at hmem
    obtain ⟨-, -, -, rfl⟩ := hmem
    obtain ⟨pre, fn, this, args, h1, h2, h3⟩ :=
      uncaught_split argv cfg p q g pr g2 jm v busy [] hcfg rfl
    refine ⟨pre, busy, [], fn, this, args, ?_, h2, h3, hbusy, Or.inl ⟨rfl, hlen, rfl⟩⟩
    simpa using h1
  | walkAbort cfg p q g pr g2 jm res busy walk hcfg hp hq hok hbusy hwalk =>
    simp [not_mem_of_class hcfg, not_mem_of_class (loop_class busy),
      not_mem_of_class hwalk] at hmem
    obtain ⟨-, -, -, rfl⟩ := hmem
    obtain ⟨pre, fn, this, args, h1, h2, h3⟩ :=
      uncaught_split argv cfg p q g pr g2 jm v busy (idleEvents ++ exitEvents ++ walk) hcfg (by
        simp only [List.filter_append, class_filter_nil hwalk _ walkStep_not_uncaught]
        simp [Event.isUncaught])
    refine ⟨pre, busy, idleEvents ++ exitEvents ++ walk, fn, this, args, ?_, h2, h3, hbusy,
      Or.inr ⟨by simp, [Event.ProcessEmitExit 0, Event.CleanupModuleList, Event.JObject_cleanup,
        Event.uv_walk] ++ walk, by simp [List.append_assoc]⟩⟩
    simpa only [List.append_assoc] using h1
  | closeFail cfg p q g pr g2 jm res busy walk b r hcfg hp hq hok hbusy hwalk hr =>
    simp [not_mem_of_class hcfg, not_mem_of_class (loop_class busy),
      not_mem_of_class hwalk] at hmem
    obtain ⟨-, -, -, rfl⟩ := hmem
    obtain ⟨pre, fn, this, args, h1, h2, h3⟩ :=
      uncaught_split argv cfg p q g pr g2 jm v busy (idleEvents ++ exitEvents ++ walk ++
        [Event.uv_run RunMode.UV_RUN_DEFAULT b, Event.uv_loop_close r]) hcfg (by
        simp only [List.filter_append, class_filter_nil hwalk _ walkStep_not_uncaught]
        simp [Event.isUncaught])
    refine ⟨pre, busy, idleEvents ++ exitEvents ++ walk ++
        [Event.uv_run RunMode.UV_RUN_DEFAULT b, Event.uv_loop_close r], fn, this, args, ?_, h2, h3,
      hbusy, Or.inr ⟨by simp, [Event.ProcessEmitExit 0, Event.CleanupModuleList, Event.JObject_cleanup,
        Event.uv_walk] ++ walk ++
        [Event.uv_run RunMode.UV_RUN_DEFAULT b, Event.uv_loop_close r],
        by simp [List.append_assoc]⟩⟩
    simpa only [List.append_assoc] using h1
  | done cfg p q g pr g2 jm res busy walk b hcfg hp hq hok hbusy hwalk =>
    simp [not_mem_of_class hcfg, not_mem_of_class (loop_class busy),
      not_mem_of_class hwalk] at hmem
    obtain ⟨-, -, -, rfl⟩ := hmem
    obtain ⟨pre, fn, this, args, h1, h2, h3⟩ :=
      uncaught_split argv cfg p q g pr g2 jm v busy (idleEvents ++ exitEvents ++ walk ++
        [Event.uv_run RunMode.UV_RUN_DEFAULT b, Event.uv_loop_close 0] ++ releaseEvents) hcfg (by
        simp only [List.filter_append, class_filter_nil hwalk _ walkStep_not_uncaught]
        simp [Event.isUncaught])
    refine ⟨pre, busy, idleEvents ++ exitEvents ++ walk ++
        [Event.uv_run RunMode.UV_RUN_DEFAULT b, Event.uv_loop_close 0] ++ releaseEvents,
      fn, this, args, ?_, h2, h3, hbusy, Or.inr ⟨by simp, [Event.ProcessEmitExit 0, Event.CleanupModuleList, Event.JObject_cleanup,
        Event.uv_walk] ++ walk ++
        [Event.uv_run RunMode.UV_RUN_DEFAULT b, Event.uv_loop_close 0] ++ releaseEvents,
        by simp [List.append_assoc]⟩⟩
    simpa only [List.append_assoc] using h1

/-- C2. In every run in which the invocation of the entry function yields an
exception value `v`, the `uncaught_exception` hook is called exactly once, with
`v`, right after the invocation and before any run of the event loop; the loop
driver is then entered and runs whole iterations, each of which found more
work, until the idle iteration ends it (the budget of the model is used up only
after `fuel` iterations that all found more work). -/
theorem Start_uncaught_exception (ext : Ext σ) (fuel : Nat) (argv : List String) (w : World σ)
    (v : JObject) (hthrow : MainScriptThrew (Start ext fuel argv w).2.trace v) :
    ∃ (pre : List Event) (busy : List Signals) (post : List Event) (fn this : JObject)
        (args : List JObject),
      (Start ext fuel argv w).2.trace =
        pre ++ [Event.Call fn this args ⟨v, JResultType.Exception⟩, Event.UncaughtException v,
          Event.GoState Phase.RunningLoop] ++ busy.flatMap iterEvents ++ post ∧
      (∀ e ∈ pre, e.isUvRun = false ∧ e.isUncaught = false) ∧
      (∀ e ∈ busy.flatMap iterEvents ++ post, e.isUncaught = false) ∧
      (∀ it ∈ busy, it.more = true) ∧
      (((Start ext fuel argv w).1 = Outcome.outOfFuel ∧ busy.length = fuel ∧ post = []) ∨
       ((Start ext fuel argv w).1 ≠ Outcome.outOfFuel ∧
        ∃ rest, post = idleEvents ++ Event.GoState Phase.Exiting :: rest)) :=
  (Start_shape ext fuel argv w).uncaught v hthrow
end claims4

section claims5
variable {σ : Type}

theorem Exec.andThen_outOfFuel {α β : Type} (x : Exec σ α) (f : α → Exec σ β) (m : Machine σ)
    (h : (x m).1 = Outcome.outOfFuel) : (Exec.andThen x f m).1 = Outcome.outOfFuel := by
  rcases hx : x m with ⟨o, m1⟩
  rw [hx] at h
  simp only at h
  subst h
  simp [Exec.andThen, hx]

end claims5

section claims6
variable {σ : Type}

theorem loopBody_eq (ext : Ext σ) (m : Machine σ) :
    (loopBody ext m).1 = Outcome.value (signalsAt ext m).more ∧
      (loopBody ext m).2.trace = m.trace ++ iterEvents (signalsAt ext m) ∧
      (loopBody ext m).2.phase = m.phase := by
  cases ha : (ext.uv_run_once m.world).1 <;>
    cases hb : (ext.ProcessNextTick (ext.uv_run_once m.world).2).1 <;>
    simp [loopBody, Exec.andThen, ask_apply, Exec.ite_apply, signalsAt, pollAt, tickAt, aliveAt,
      Signals.more, iterEvents, ha, hb]

theorem loopDriver_succ (ext : Ext σ) (fuel : Nat) (m : Machine σ) :
    loopDriver ext (fuel + 1) m =
      if (signalsAt ext m).more = true then loopDriver ext fuel (loopBody ext m).2
      else (Outcome.value (), (loopBody ext m).2) := by
  have h := (loopBody_eq ext m).1
  rcases hb : loopBody ext m with ⟨o, m1⟩
  rw [hb] at h
  simp only at h
  subst h
  simp only [loopDriver, Exec.andThen, hb]
  cases (signalsAt ext m).more <;> simp [Exec.ret]

theorem loopDriver_first_idle (ext : Ext σ) (n : Nat) (m : Machine σ)
    (hbusy : ∀ k < n, (signalsAt ext (afterIters ext k m)).more = true)
    (hidle : (signalsAt ext (afterIters ext n m)).more = false) :
    (∀ fuel, n < fuel → loopDriver ext fuel m = (Outcome.value (), afterIters ext (n + 1) m)) ∧
      (∀ fuel, fuel ≤ n → (loopDriver ext fuel m).1 = Outcome.outOfFuel) := by
  induction n generalizing m with
  | zero =>
    refine ⟨fun fuel hf => ?_, fun fuel hf => ?_⟩
    · obtain ⟨f, rfl⟩ : ∃ f, fuel = f + 1 := ⟨fuel - 1, by omega⟩
      rw [loopDriver_succ]
      simp only [afterIters] at hidle
      simp [hidle, afterIters]
    · have : fuel = 0 := by omega
      subst this
      rfl
  | succ n ih =>
    have h0 : (signalsAt ext m).more = true := hbusy 0 (by omega)
    have ih' := ih (loopBody ext m).2 (fun k hk => hbusy (k + 1) (by omega)) hidle
    refine ⟨fun fuel hf => ?_, fun fuel hf => ?_⟩
    · obtain ⟨f, rfl⟩ : ∃ f, fuel = f + 1 := ⟨fuel - 1, by omega⟩
      rw [loopDriver_succ]
      simp only [h0, if_true]
      exact ih'.1 f (by omega)
    · cases fuel with
      | zero => rfl
      | succ f =>
        rw [loopDriver_succ]
        simp only [h0, if_true]
        exact ih'.2 f (by omega)

/-- C4. One pass through the loop body polls, drains, and checks liveness only
when neither the poll nor the drain reported work; the driver goes on to
another iteration exactly when the poll reported work, the drain reported work
or the loop is alive.  Hence the driver returns exactly at the first iteration
whose three signals are all false: with more budget than that it returns after
that iteration, with less it is still running. -/
theorem loopDriver_continues_iff (ext : Ext σ) (m : Machine σ) :
    (loopBody ext m).1 = Outcome.value (pollAt ext m || tickAt ext m || aliveAt ext m) ∧
      (loopBody ext m).2.trace = m.trace ++
        ([Event.uv_run RunMode.UV_RUN_ONCE (pollAt ext m), Event.ProcessNextTick (tickAt ext m)] ++
          if pollAt ext m || tickAt ext m then [] else [Event.uv_loop_alive (aliveAt ext m)]) ∧
      (∀ fuel, loopDriver ext (fuel + 1) m =
        if (pollAt ext m || tickAt ext m || aliveAt ext m) = true then
          loopDriver ext fuel (loopBody ext m).2
        else (Outcome.value (), (loopBody ext m).2)) ∧
      (∀ n, (∀ k < n, (signalsAt ext (afterIters ext k m)).more = true) →
        (pollAt ext (afterIters ext n m) = false ∧ tickAt ext (afterIters ext n m) = false ∧
          aliveAt ext (afterIters ext n m) = false) →
        (∀ fuel, n < fuel →
          loopDriver ext fuel m = (Outcome.value (), afterIters ext (n + 1) m)) ∧
        (∀ fuel, fuel ≤ n → (loopDriver ext fuel m).1 = Outcome.outOfFuel)) := by
  refine ⟨(loopBody_eq ext m).1, (loopBody_eq ext m).2.1, fun fuel => loopDriver_succ ext fuel m,
    fun n hbusy hidle => ?_⟩
  apply loopDriver_first_idle ext n m hbusy
  simp [signalsAt, Signals.more, hidle.1, hidle.2.1, hidle.2.2]

/-- C5. From a loop state in which the poll reports no work, the drain reports
no task and the loop is not alive, the loop driver performs exactly one
iteration, made of one poll, one drain and one liveness check, and returns. -/
theorem loopDriver_idle_once (ext : Ext σ) (m : Machine σ) (fuel : Nat)
    (hpoll : pollAt ext m = false) (htick : tickAt ext m = false)
    (halive : aliveAt ext m = false) :
    (loopDriver ext (fuel + 1) m).1 = Outcome.value () ∧
      (loopDriver ext (fuel + 1) m).2.trace = m.trace ++
        [Event.uv_run RunMode.UV_RUN_ONCE false, Event.ProcessNextTick false,
          Event.uv_loop_alive false] ∧
      (loopDriver ext (fuel + 1) m).2 = afterIters ext 1 m := by
  have hs : signalsAt ext m = (false, false, false) := by
    simp [signalsAt, hpoll, htick, halive]
  have hb := loopBody_eq ext m
  have hm : (signalsAt ext m).more = false := by
    rw [hs]
    rfl
  have heq : loopDriver ext (fuel + 1) m = (Outcome.value (), (loopBody ext m).2) := by
    rw [loopDriver_succ]
    simp [hm]
  rw [heq]
  refine ⟨rfl, ?_, rfl⟩
  show (loopBody ext m).2.trace = _
  rw [hb.2.1, hs]
  rfl
theorem closeAll_data (ws : List (Option Nat)) (l : List UvHandle) :
    (closeAll ws l).map (fun x => x.data) = l.map (fun x => x.data) := by
  simp only [closeAll, List.map_map]
  apply List.map_congr_left
  intro x _
  simp only [Function.comp]
  split_ifs <;> rfl

theorem closeAll_nil (l : List UvHandle) : closeAll [] l = l := by
  simp [closeAll]

theorem closeAll_cons (w : Nat) (ws : List (Option Nat)) (l : List UvHandle) :
    closeAll ws (l.map fun h => if h.data = some w then { h with closing := true } else h) =
      closeAll (some w :: ws) l := by
  simp only [closeAll, List.map_map]
  apply List.map_congr_left
  intro x _
  simp only [Function.comp, List.mem_cons]
  by_cases h1 : x.data = some w <;> by_cases h2 : x.data ∈ ws <;> simp [h1, h2]

theorem walkHandles_closes (hs : List UvHandle) (m : Machine σ)
    (hhs : ∀ h ∈ hs, h.data.isSome = true) :
    walkHandles UvWalkToCloseCallback hs m =
      (Outcome.value (),
        { world := { loop := closeAll (hs.map fun h => h.data) m.world.loop,
                     script := m.world.script },
          phase := m.phase,
          trace := m.trace ++ hs.flatMap closeEvents }) := by
  induction hs generalizing m with
  | nil =>
    obtain ⟨⟨l, s⟩, ph, tr⟩ := m
    simp [walkHandles, Exec.ret, closeAll_nil]
  | cons h hs ih =>
    obtain ⟨w, hw⟩ := Option.isSome_iff_exists.1 (hhs h (List.mem_cons_self _ _))
    have hcb : UvWalkToCloseCallback h m =
        (Outcome.value (),
          { world := { loop := m.world.loop.map fun x =>
                          if x.data = some w then { x with closing := true } else x,
                       script := m.world.script },
            phase := m.phase,
            trace := m.trace ++ [Event.FromHandle h (some w), Event.HandleWrap_Close w] }) := by
      simp [UvWalkToCloseCallback, Exec.andThen, HandleWrap_FromHandle_apply, IOTJS_ASSERT,
        HandleWrap_Close_apply, hw]
    simp only [walkHandles, Exec.andThen, hcb]
    rw [ih _ (fun x hx => hhs x (List.mem_cons_of_mem _ hx))]
    simp [closeAll_cons, closeEvents, hw, List.append_assoc]

theorem closeAll_self_filter (l : List UvHandle) :
    (closeAll (l.map fun h => h.data) l).filter (fun h => !h.closing) = [] := by
  rw [List.filter_eq_nil_iff]
  intro x hx
  simp only [closeAll, List.mem_map] at hx
  obtain ⟨y, hy, rfl⟩ := hx
  have : ∃ a ∈ l, a.data = y.data := ⟨y, hy, rfl⟩
  simp [this]

theorem visited_closeEvents (l : List UvHandle) : visited (l.flatMap closeEvents) = l := by
  induction l with
  | nil => rfl
  | cons h t ih =>
    simp only [List.flatMap_cons, visited, List.filterMap_append] at ih ⊢
    rw [ih]
    cases hd : h.data <;> simp [closeEvents, hd]

theorem Start_walk_is_shutdown (ext : Ext σ) (fuel : Nat) (argv : List String) (w : World σ)
    (hwalk : Event.uv_walk ∈ (Start ext fuel argv w).2.trace) :
    ∃ m, m.phase = Phase.Exiting ∧ Start ext fuel argv w = StartShutdown ext m := by
  rcases hr : Start ext fuel argv w with ⟨o, mf⟩
  rw [hr] at hwalk
  simp only at hwalk
  cases hparse : (ext.ParseCommandLineArgument argv
      (ext.effect Event.GetEnv (ext.effect Event.init_debug_settings w))).1
  · simp [Start, StartFrom, boot, Exec.andThen, call_apply, ask_apply, Exec.ite_apply,
      hparse] at hr
    obtain ⟨rfl, rfl⟩ := hr
    simp at hwalk
  · simp only [Start, StartFrom, boot, Exec.bind_apply, Exec.andThen, call_apply, ask_apply,
      Exec.ite_apply, hparse, Exec.pure_apply, Bool.not_true, Bool.false_eq_true, if_false] at hr
    split at hr
    · rename_i b m1 hI
      obtain ⟨cfg, p, q, hcfg, hb, hph, htr⟩ := InitJerry_inv ext _ _ _ hI
      simp only [Outcome.value.injEq, List.nil_append] at hb hph htr
      subst hb
      cases hp : p.error_flag
      · cases hq : q.error_flag
        · simp only [hp, hq, Bool.not_false, Bool.and_self, Bool.not_true, Bool.false_eq_true,
            if_false] at hr htr
          split at hr
          · rename_i a m2 hS
            obtain ⟨g, pr, g2, jm, res, busy, hbusy, hcase⟩ :=
              StartIoTjs_inv ext fuel _ _ _ hph hS
            rcases hcase with ⟨-, ha, -⟩ | ⟨-, ha, -⟩ | ⟨hok, ha, hph2, htr2⟩
            · cases ha
            · cases ha
            · simp only [Outcome.value.injEq] at ha
              subst ha
              simp only [Bool.not_true, Bool.false_eq_true, if_false] at hr
              exact ⟨m2, hph2, hr.symm⟩
          · rename_i m2 hS
            obtain ⟨g, pr, g2, jm, res, busy, hbusy, hcase⟩ :=
              StartIoTjs_inv ext fuel _ _ _ hph hS
            simp only [Prod.mk.injEq] at hr
            obtain ⟨rfl, rfl⟩ := hr
            rcases hcase with ⟨hok, -, hph2, htr2⟩ | ⟨-, ha, -⟩ | ⟨-, ha, -⟩
            · rw [htr2, htr] at hwalk
              simp [not_mem_of_class hcfg] at hwalk
            · cases ha
            · cases ha
          · rename_i m2 hS
            obtain ⟨g, pr, g2, jm, res, busy, hbusy, hcase⟩ :=
              StartIoTjs_inv ext fuel _ _ _ hph hS
            simp only [Prod.mk.injEq] at hr
            obtain ⟨rfl, rfl⟩ := hr
            rcases hcase with ⟨-, ha, -⟩ | ⟨hok, -, hlen, hph2, htr2⟩ | ⟨-, ha, -⟩
            · cases ha
            · rw [htr2, htr] at hwalk
              simp [not_mem_of_class hcfg, not_mem_of_class (loop_class busy)] at hwalk
            · cases ha
        · simp [hp, hq] at hr htr
          obtain ⟨rfl, rfl⟩ := hr
          rw [htr] at hwalk
          simp [not_mem_of_class hcfg] at hwalk
      · simp [hp] at hr htr
        obtain ⟨rfl, rfl⟩ := hr
        rw [htr] at hwalk
        simp [not_mem_of_class hcfg] at hwalk
    · rename_i m1 hI
      obtain ⟨cfg, p, q, hcfg, hb, -⟩ := InitJerry_inv ext _ _ _ hI
      cases hb
    · rename_i m1 hI
      obtain ⟨cfg, p, q, hcfg, hb, -⟩ := InitJerry_inv ext _ _ _ hI
      cases hb

/-- C7. From any state whose loop holds K handles, each with its wrapper, the
last part of `Start` invokes the close callback exactly once on each handle,
in the order of the loop, requesting its closure; the run to completion then leaves no
handle (it reports that none remains), `uv_loop_close` returns 0, the assertion
`res == 0` holds and `Start` returns 0 after releasing the engine, the
Environment and the debug settings. -/
theorem StartShutdown_closes_all (ext : Ext σ) (m : Machine σ) (K : Nat)
    (hK : m.world.loop.length = K)
    (hwrap : ∀ h ∈ m.world.loop, h.data.isSome = true) :
    (StartShutdown ext m).1 = Outcome.value 0 ∧
      (StartShutdown ext m).2.trace =
        m.trace ++ [Event.uv_walk] ++ m.world.loop.flatMap closeEvents ++
          [Event.uv_run RunMode.UV_RUN_DEFAULT false, Event.uv_loop_close 0] ++ releaseEvents ∧
      visited (m.world.loop.flatMap closeEvents) = m.world.loop ∧
      (visited (m.world.loop.flatMap closeEvents)).length = K ∧
      (uv_run_default (uv_walk UvWalkToCloseCallback m).2).2.world.loop = [] := by
  have hwalk : uv_walk UvWalkToCloseCallback m =
      (Outcome.value (),
        { world := { loop := closeAll (m.world.loop.map fun h => h.data) m.world.loop,
                     script := m.world.script },
          phase := m.phase,
          trace := m.trace ++ [Event.uv_walk] ++ m.world.loop.flatMap closeEvents }) := by
    rw [uv_walk_apply, walkHandles_closes _ _ hwrap]
  refine ⟨?_, ?_, visited_closeEvents _, by rw [visited_closeEvents, hK], ?_⟩
  · simp [StartShutdown, ReleaseJerry, Exec.andThen, hwalk, uv_run_default_apply,
      uv_loop_close_apply, IOTJS_ASSERT, call_apply, closeAll_self_filter]
  · simp [StartShutdown, ReleaseJerry, Exec.andThen, hwalk, uv_run_default_apply,
      uv_loop_close_apply, IOTJS_ASSERT, call_apply, closeAll_self_filter, List.append_assoc]
  · simp [hwalk, uv_run_default_apply, closeAll_self_filter]
end claims6

section exitcode
variable {σ : Type}

theorem InitJerry_value (ext : Ext σ) (m : Machine σ) :
    (InitJerry ext m).1 = Outcome.value
      (!(parseResult ext m.world).error_flag && !(runResult ext m.world).error_flag) := by
  simp only [InitJerry, Exec.bind_apply, Exec.andThen, call_apply, ask_apply, peek,
    Exec.pure_apply, jerry_value_has_error_flag, Exec.ite_apply, parseResult, runResult,
    engineWorld, jerryFlags, afterShowOpcode, afterMemstat]
  split_ifs <;> simp_all

theorem Start_value_cases (ext : Ext σ) (fuel : Nat) (argv : List String) (w : World σ) :
    (parseAnswer ext argv w = false → (Start ext fuel argv w).1 = Outcome.value 1) ∧
      (parseAnswer ext argv w = true → engineInitFails ext argv w = true →
        (Start ext fuel argv w).1 = Outcome.value 1) ∧
      (parseAnswer ext argv w = true → engineInitFails ext argv w = false →
        ∀ r, (Start ext fuel argv w).1 = Outcome.value r → r = 0) := by
  rcases hr : Start ext fuel argv w with ⟨o, mf⟩
  simp only
  cases hparse : parseAnswer ext argv w
  · have hparse2 := hparse
    simp only [parseAnswer] at hparse2
    simp [Start, StartFrom, boot, Exec.andThen, call_apply, ask_apply, Exec.ite_apply,
      hparse2] at hr
    obtain ⟨rfl, rfl⟩ := hr
    simp
  · have hparse2 := hparse
    simp only [parseAnswer] at hparse2
    simp only [Start, StartFrom, boot, Exec.bind_apply, Exec.andThen, call_apply, ask_apply,
      Exec.ite_apply, hparse2, Exec.pure_apply, Bool.not_true, Bool.false_eq_true,
      if_false] at hr
    split at hr
    · rename_i b m1 hI
      have hv := congrArg Prod.fst hI
      rw [InitJerry_value] at hv
      simp only [Outcome.value.injEq] at hv
      have hfail : engineInitFails ext argv w = !b := by
        rw [← hv]
        simp only [engineInitFails, worldAtInitJerry]
        cases (parseResult ext _).error_flag <;> cases (runResult ext _).error_flag <;> rfl
      obtain ⟨cfg, p, q, hcfg, hb, hph, htr⟩ := InitJerry_inv ext _ _ _ hI
      simp only at hph
      cases b
      · simp only [Bool.not_false, if_true, Prod.mk.injEq] at hr
        obtain ⟨rfl, rfl⟩ := hr
        simp [hfail]
      · simp only [Bool.not_true, Bool.false_eq_true, if_false] at hr
        refine ⟨by simp, by simp [hfail], fun _ _ r hval => ?_⟩
        split at hr
        · rename_i a m2 hS
          obtain ⟨g, pr, g2, jm, res, busy, hbusy, hcase⟩ := StartIoTjs_inv ext fuel _ _ _ hph hS
          rcases hcase with ⟨-, ha, -⟩ | ⟨-, ha, -⟩ | ⟨hok, ha, hph2, htr2⟩
          · cases ha
          · cases ha
          · simp only [Outcome.value.injEq] at ha
            subst ha
            simp only [Bool.not_true, Bool.false_eq_true, if_false] at hr
            obtain ⟨walk, b, r0, hwalk, hph3, hcase⟩ := StartShutdown_inv ext _ _ _ hr
            rcases hcase with ⟨ho, -⟩ | ⟨ho, -⟩ | ⟨ho, -⟩
            · rw [ho] at hval
              cases hval
            · rw [ho] at hval
              cases hval
            · rw [ho] at hval
              simp only [Outcome.value.injEq] at hval
              exact hval.symm
        · simp only [Prod.mk.injEq] at hr
          rw [← hr.1] at hval
          cases hval
        · simp only [Prod.mk.injEq] at hr
          rw [← hr.1] at hval
          cases hval
    · rename_i m1 hI
      have hv := congrArg Prod.fst hI
      rw [InitJerry_value] at hv
      cases hv
    · rename_i m1 hI
      have hv := congrArg Prod.fst hI
      rw [InitJerry_value] at hv
      cases hv

/-- C1. In every run of `Start` that returns, the result is 1 exactly when
`ParseCommandLineArgument` answers false or the engine fails to initialise (the
parse of the empty program, or the run of the parsed program, answers a value
with the error flag), and 0 otherwise, also when the entry function of the main
script raised an exception.  Whenever parsing or engine initialisation fails,
`Start` does return 1, whatever the loop budget.  The same reads off the trace:
the result is 1 exactly when the trace holds a failed parse of the arguments or
an engine answer with the error flag. -/
theorem Start_exit_code (ext : Ext σ) (fuel : Nat) (argv : List String) (w : World σ) (r : Int)
    (h : (Start ext fuel argv w).1 = Outcome.value r) :
    (r = 1 ↔ parseAnswer ext argv w = false ∨ engineInitFails ext argv w = true) ∧
      (¬(parseAnswer ext argv w = false ∨ engineInitFails ext argv w = true) → r = 0) ∧
      (parseAnswer ext argv w = false ∨ engineInitFails ext argv w = true →
        ∀ fuel', (Start ext fuel' argv w).1 = Outcome.value 1) ∧
      (r = 1 ↔ ParseFailed (Start ext fuel argv w).2.trace ∨
        EngineInitFailed (Start ext fuel argv w).2.trace) ∧
      (¬(ParseFailed (Start ext fuel argv w).2.trace ∨
        EngineInitFailed (Start ext fuel argv w).2.trace) → r = 0) ∧
      (∀ v, MainScriptThrew (Start ext fuel argv w).2.trace v → r = 0) := by
  have hs := Start_shape ext fuel argv w
  rw [h] at hs
  obtain ⟨t1, t2, t3⟩ := hs.exit_code
  have hone : parseAnswer ext argv w = false ∨ engineInitFails ext argv w = true →
      ∀ fuel', (Start ext fuel' argv w).1 = Outcome.value 1 := by
    intro hf fuel'
    obtain ⟨c1, c2, -⟩ := Start_value_cases ext fuel' argv w
    cases hp : parseAnswer ext argv w
    · exact c1 hp
    · rcases hf with hf | hf
      · rw [hp] at hf
        cases hf
      · exact c2 hp hf
  have hzero : ¬(parseAnswer ext argv w = false ∨ engineInitFails ext argv w = true) → r = 0 := by
    intro hn
    obtain ⟨-, -, c3⟩ := Start_value_cases ext fuel argv w
    have hp : parseAnswer ext argv w = true := by
      cases hp : parseAnswer ext argv w
      · exact absurd (Or.inl hp) hn
      · rfl
    have hf : engineInitFails ext argv w = false := by
      cases hf : engineInitFails ext argv w
      · rfl
      · exact absurd (Or.inr hf) hn
    exact c3 hp hf r h
  refine ⟨⟨fun hr1 => ?_, fun hf => ?_⟩, hzero, hone, t1, t2, t3⟩
  · by_contra hn
    have := hzero hn
    omega
  · have := hone hf fuel
    rw [h] at this
    simpa using this
end exitcode

section witnesses

/-- C1 at three concrete runs: the parse of the empty program fails and `Start`
returns 1; the run of the parsed program fails and `Start` returns 1; the main
script throws, the loop polls twice with work, two handles are closed, and
`Start` returns 0. -/
theorem Start_exit_code_witness :
    (engineInitFails (scripted { Script.quiet with parseError := true }) ["iotjs", "app.js"]
          twoHandles = true ∧
        (Start (scripted { Script.quiet with parseError := true }) 5 ["iotjs", "app.js"]
          twoHandles).1 = Outcome.value 1 ∧
        ((1 : Int) = 1 ↔
          parseAnswer (scripted { Script.quiet with parseError := true }) ["iotjs", "app.js"]
            twoHandles = false ∨
          engineInitFails (scripted { Script.quiet with parseError := true }) ["iotjs", "app.js"]
            twoHandles = true)) ∧
      (engineInitFails (scripted { Script.quiet with runError := true }) ["iotjs", "app.js"]
          twoHandles = true ∧
        (Start (scripted { Script.quiet with runError := true }) 5 ["iotjs", "app.js"]
          twoHandles).1 = Outcome.value 1 ∧
        ((1 : Int) = 1 ↔
          parseAnswer (scripted { Script.quiet with runError := true }) ["iotjs", "app.js"]
            twoHandles = false ∨
          engineInitFails (scripted { Script.quiet with runError := true }) ["iotjs", "app.js"]
            twoHandles = true)) ∧
      ((Start (scripted { Script.quiet with throws := true, busyPolls := 2 }) 5
          ["iotjs", "app.js"] twoHandles).1 = Outcome.value 0 ∧
        MainScriptThrew (Start (scripted { Script.quiet with throws := true, busyPolls := 2 }) 5
          ["iotjs", "app.js"] twoHandles).2.trace 66 ∧
        ((0 : Int) = 1 ↔
          parseAnswer (scripted { Script.quiet with throws := true, busyPolls := 2 })
            ["iotjs", "app.js"] twoHandles = false ∨
          engineInitFails (scripted { Script.quiet with throws := true, busyPolls := 2 })
            ["iotjs", "app.js"] twoHandles = true)) :=
  ⟨⟨by decide, by decide,
      (Start_exit_code (scripted { Script.quiet with parseError := true }) 5
        ["iotjs", "app.js"] twoHandles 1 (by decide)).1⟩,
    ⟨by decide, by decide,
      (Start_exit_code (scripted { Script.quiet with runError := true }) 5
        ["iotjs", "app.js"] twoHandles 1 (by decide)).1⟩,
    ⟨by decide, ⟨30, 10, [20], by decide⟩,
      (Start_exit_code (scripted { Script.quiet with throws := true, busyPolls := 2 }) 5
        ["iotjs", "app.js"] twoHandles 0 (by decide)).1⟩⟩

/-- C2 at a concrete run in which the entry function throws 66. -/
theorem Start_uncaught_exception_witness :
    MainScriptThrew (Start (scripted { Script.quiet with throws := true, busyPolls := 2 }) 5
        ["iotjs", "app.js"] twoHandles).2.trace 66 ∧
      ∃ (pre : List Event) (busy : List Signals) (post : List Event) (fn this : JObject)
        (args : List JObject),
        (Start (scripted { Script.quiet with throws := true, busyPolls := 2 }) 5
            ["iotjs", "app.js"] twoHandles).2.trace =
          pre ++ [Event.Call fn this args ⟨66, JResultType.Exception⟩, Event.UncaughtException 66,
            Event.GoState Phase.RunningLoop] ++ busy.flatMap iterEvents ++ post ∧
        (∀ e ∈ pre, e.isUvRun = false ∧ e.isUncaught = false) ∧
        (∀ e ∈ busy.flatMap iterEvents ++ post, e.isUncaught = false) ∧
        (∀ it ∈ busy, it.more = true) ∧
        (((Start (scripted { Script.quiet with throws := true, busyPolls := 2 }) 5
            ["iotjs", "app.js"] twoHandles).1 = Outcome.outOfFuel ∧ busy.length = 5 ∧
            post = []) ∨
         ((Start (scripted { Script.quiet with throws := true, busyPolls := 2 }) 5
            ["iotjs", "app.js"] twoHandles).1 ≠ Outcome.outOfFuel ∧
          ∃ rest, post = idleEvents ++ Event.GoState Phase.Exiting :: rest)) :=
  ⟨⟨30, 10, [20], by decide⟩,
    Start_uncaught_exception (scripted { Script.quiet with throws := true, busyPolls := 2 }) 5
      ["iotjs", "app.js"] twoHandles 66 ⟨30, 10, [20], by decide⟩⟩

/-- C3 at a concrete run in which the parse of the empty program fails. -/
theorem Start_engine_parse_failure_witness :
    (Start (scripted { Script.quiet with parseError := true }) 5 ["iotjs", "app.js"]
        twoHandles).1 = Outcome.value 1 ∧
      (Start (scripted { Script.quiet with parseError := true }) 5 ["iotjs", "app.js"]
        twoHandles).2.phase = Phase.Init ∧
      ∀ e ∈ (Start (scripted { Script.quiet with parseError := true }) 5 ["iotjs", "app.js"]
        twoHandles).2.trace, e.isRuntimeStep = false :=
  Start_engine_parse_failure (scripted { Script.quiet with parseError := true }) 5
    ["iotjs", "app.js"] twoHandles (by decide) ⟨⟨0, true⟩, rfl, by decide⟩

/-- C5 at the state of a fresh process with scripted collaborators that have
nothing to do. -/
theorem loopDriver_idle_once_witness :
    (loopDriver (scripted Script.quiet) 1 (boot emptyWorld)).1 = Outcome.value () ∧
      (loopDriver (scripted Script.quiet) 1 (boot emptyWorld)).2.trace =
        (boot emptyWorld).trace ++
          [Event.uv_run RunMode.UV_RUN_ONCE false, Event.ProcessNextTick false,
            Event.uv_loop_alive false] ∧
      (loopDriver (scripted Script.quiet) 1 (boot emptyWorld)).2 =
        afterIters (scripted Script.quiet) 1 (boot emptyWorld) :=
  loopDriver_idle_once (scripted Script.quiet) (boot emptyWorld) 0 (by decide) (by decide)
    (by decide)

/-- C6 at a concrete run that returns 0. -/
theorem Start_teardown_order_witness :
    ∃ b, (Start (scripted { Script.quiet with busyPolls := 2 }) 5 ["iotjs", "app.js"]
        twoHandles).2.trace.filter Event.isTeardownStep =
      [Event.GoState Phase.Exiting, Event.ProcessEmitExit 0, Event.CleanupModuleList,
        Event.uv_walk, Event.uv_run RunMode.UV_RUN_DEFAULT b, Event.uv_loop_close 0,
        Event.jerry_cleanup, Event.Environment_Release] :=
  Start_teardown_order (scripted { Script.quiet with busyPolls := 2 }) 5 ["iotjs", "app.js"]
    twoHandles (by decide)

/-- C7 at a state whose loop holds two handles. -/
theorem StartShutdown_closes_all_witness :
    (StartShutdown (scripted Script.quiet) (boot twoHandles)).1 = Outcome.value 0 ∧
      (StartShutdown (scripted Script.quiet) (boot twoHandles)).2.trace =
        (boot twoHandles).trace ++ [Event.uv_walk] ++
          (boot twoHandles).world.loop.flatMap closeEvents ++
          [Event.uv_run RunMode.UV_RUN_DEFAULT false, Event.uv_loop_close 0] ++ releaseEvents ∧
      visited ((boot twoHandles).world.loop.flatMap closeEvents) = (boot twoHandles).world.loop ∧
      (visited ((boot twoHandles).world.loop.flatMap closeEvents)).length = 2 ∧
      (uv_run_default (uv_walk UvWalkToCloseCallback (boot twoHandles)).2).2.world.loop = [] :=
  StartShutdown_closes_all (scripted Script.quiet) (boot twoHandles) 2 (by decide) (by decide)

/-- C10 at a concrete run in which the engine initialises. -/
theorem Start_bootstrap_once_witness :
    ∃ pre post pr jm,
      (Start (scripted { Script.quiet with busyPolls := 2 }) 5 ["iotjs", "app.js"]
          twoHandles).2.trace =
        pre ++ [Event.InitModuleList, Event.InitProcessModule pr,
          Event.GoState Phase.RunningMain, Event.Eval jm] ++ post ∧
      (∀ e ∈ pre, e.isEval = false ∧ e.isCall = false ∧ e.isUvRun = false) ∧
      (∀ e ∈ post, e.isEval = false) ∧
      (jm.IsOk = true → ∃ g2 res rest,
        post = [Event.JObject_Global g2, Event.Call jm.value g2 [pr] res] ++ rest ∧
          ∀ e ∈ rest, e.isCall = false) :=
  Start_bootstrap_once (scripted { Script.quiet with busyPolls := 2 }) 5 ["iotjs", "app.js"]
    twoHandles ⟨⟨0, false⟩, ⟨1, false⟩, rfl, by decide⟩

/-- C9 fails on the code: when argument parsing fails `Start` returns 1 right
after creating the debug settings and the Environment; the trace ends there,
without `Environment::Release` and without `release_debug_settings`, which the
path that returns 0 both calls. -/
theorem Start_parse_failure_leaks :
    (Start (scripted { Script.quiet with parseOk := false }) 5 ["iotjs", "--bogus"]
        emptyWorld).1 = Outcome.value 1 ∧
      (Start (scripted { Script.quiet with parseOk := false }) 5 ["iotjs", "--bogus"]
        emptyWorld).2.trace =
        [Event.init_debug_settings, Event.GetEnv,
          Event.ParseCommandLineArgument ["iotjs", "--bogus"] false] ∧
      Event.Environment_Release ∈ (Start (scripted Script.quiet) 5 ["iotjs", "app.js"]
        emptyWorld).2.trace ∧
      Event.release_debug_settings ∈ (Start (scripted Script.quiet) 5 ["iotjs", "app.js"]
        emptyWorld).2.trace := by
  decide
end witnesses

end iotjs
